import Mathlib

/-!
Verification development for the `gameplay_summary` replay-telemetry
aggregation engine (`src/gameplay_summary/services/data_extractor/`).

The pandas pipeline is shallowly embedded: a dataframe is a list of rows
(association lists from column names to cells) together with its column
list; float semantics that matter to the claims (NaN / inf produced by
division, NaN-skipping aggregations, truncating and banker's-rounding
conversions) are modelled explicitly by `PVal`; fallible operations
(`KeyError`, `IndexError`, `ValueError`, `CorruptedDataError`) return
`Except PyError`.

Deliberate modelling notes, none of which affects a claim below:
* group order inside `groupby` output is first-occurrence order rather
  than pandas' key-sorted order (all claims are order-insensitive or
  re-sort afterwards);
* `sort_values` is modelled by the stable `List.insertionSort` (pandas'
  default quicksort fixes no tie order; ties never matter below);
* string-typed cells in numeric positions are treated as missing rather
  than as a `TypeError`;
* hero-name lookup (`heroes_info[...]`) is modelled by a total function,
  since no claim concerns an unknown hero id.
-/

attribute [local semireducible] Rat.add Rat.sub Rat.mul Rat.inv

namespace GS

/-! ### Python / numpy numeric primitives -/

/-- Python `int(x)` on a float: truncation toward zero. -/
def pyTrunc (q : ℚ) : ℤ := if 0 ≤ q then ⌊q⌋ else ⌈q⌉

/-- Python `round(x)`: round half to even (banker's rounding). -/
def pyRound (q : ℚ) : ℤ :=
  let f := ⌊q⌋
  if q - f < 1/2 then f
  else if (1:ℚ)/2 < q - f then f + 1
  else if Even f then f else f + 1

/-- Python `round(x, 1)`: one decimal, half to even. -/
def pyRound1 (q : ℚ) : ℚ := (pyRound (q * 10) : ℚ) / 10

/-- A pandas float value: finite, NaN, or a signed infinity. -/
inductive PVal where
  | fin (q : ℚ)
  | nan
  | inf
  | ninf
deriving DecidableEq, Repr

namespace PVal

/-- Addition (`+` on float series); NaN propagates, `inf + -inf = NaN`. -/
def padd : PVal → PVal → PVal
  | fin a, fin b => fin (a + b)
  | nan, _ => nan
  | _, nan => nan
  | inf, ninf => nan
  | ninf, inf => nan
  | inf, _ => inf
  | _, inf => inf
  | ninf, _ => ninf
  | _, ninf => ninf

/-- Subtraction on float values. -/
def psub : PVal → PVal → PVal
  | fin a, fin b => fin (a - b)
  | nan, _ => nan
  | _, nan => nan
  | inf, inf => nan
  | ninf, ninf => nan
  | inf, _ => inf
  | _, inf => ninf
  | ninf, _ => ninf
  | _, ninf => inf

/-- numpy float division `a / b` (never raises; `x/0` is `±inf`, `0/0` is NaN). -/
def pdiv : PVal → PVal → PVal
  | fin a, fin b =>
      if b = 0 then (if 0 < a then inf else if a < 0 then ninf else nan)
      else fin (a / b)
  | nan, _ => nan
  | _, nan => nan
  | inf, inf => nan
  | inf, ninf => nan
  | ninf, inf => nan
  | ninf, ninf => nan
  | inf, fin b => if 0 ≤ b then inf else ninf
  | ninf, fin b => if 0 ≤ b then ninf else inf
  | fin _, inf => fin 0
  | fin _, ninf => fin 0

/-- Multiplication by the positive literal 60 (used by rate normalization). -/
def pmul60 : PVal → PVal
  | fin a => fin (a * 60)
  | nan => nan
  | inf => inf
  | ninf => ninf

/-- Python `//` by a nonzero constant (floor division). -/
def pfdiv (v : PVal) (m : ℚ) : PVal :=
  match v with
  | fin a => fin (⌊a / m⌋ : ℤ)
  | nan => nan
  | inf => inf
  | ninf => ninf

/-- Binary max with NaN skipped (the behaviour of `Series.max(skipna=True)`
folded over values). -/
def pmax : PVal → PVal → PVal
  | nan, b => b
  | a, nan => a
  | inf, _ => inf
  | _, inf => inf
  | ninf, b => b
  | a, ninf => a
  | fin a, fin b => fin (max a b)

/-- Binary min with NaN skipped. -/
def pmin : PVal → PVal → PVal
  | nan, b => b
  | a, nan => a
  | ninf, _ => ninf
  | _, ninf => ninf
  | inf, b => b
  | a, inf => a
  | fin a, fin b => fin (min a b)

/-- Python `max(x, 1)` on a float scalar: CPython keeps the current value
when the comparison with NaN is false, so `max(nan, 1) = nan`. -/
def pmaxFloor1 : PVal → PVal
  | fin a => fin (max a 1)
  | nan => nan
  | inf => inf
  | ninf => fin 1

/-- Python `round(x, 1)` on a float scalar: finite values are rounded
half-to-even; `round(nan, 1) = nan` and `round(inf, 1) = inf`. -/
def pround1 : PVal → PVal
  | fin a => fin (pyRound1 a)
  | nan => nan
  | inf => inf
  | ninf => ninf

/-- `Series.max()`: NaN-skipping maximum; empty / all-NaN gives NaN. -/
def aggMax (l : List PVal) : PVal := l.foldl pmax nan

/-- `Series.min()`: NaN-skipping minimum; empty / all-NaN gives NaN. -/
def aggMin (l : List PVal) : PVal := l.foldl pmin nan

/-- `Series.sum()`: NaN-skipping sum; empty / all-NaN gives 0. -/
def aggSum (l : List PVal) : PVal :=
  l.foldl (fun acc v => match v with | nan => acc | _ => padd acc v) (fin 0)

/-- Whether `pd.isna` holds of the value. -/
def isNA : PVal → Bool
  | nan => true
  | _ => false

end PVal

/-! ### Cells, rows and dataframes -/

/-- One dataframe cell: a float value or a string. -/
inductive Cell where
  | num (v : PVal)
  | str (s : String)
deriving DecidableEq, Repr

/-- The numeric view of a cell (strings act as missing, see header note). -/
def Cell.pv : Cell → PVal
  | Cell.num v => v
  | Cell.str _ => PVal.nan

/-- `pd.isna` on a cell. -/
def Cell.isNA : Cell → Bool
  | Cell.num v => v.isNA
  | Cell.str _ => false

/-- A row: an association list from column names to cells.  A column that
the row does not bind reads as NaN (`Row.get`), mirroring how pandas
materialises absent values. -/
abbrev Row := List (String × Cell)

/-- Read a cell from a row, defaulting to NaN. -/
def Row.get (r : Row) (c : String) : Cell :=
  ((r.find? (fun p => p.1 = c)).map Prod.snd).getD (Cell.num PVal.nan)

/-- Overwrite (or create) one column of a row. -/
def Row.set (r : Row) (c : String) (v : Cell) : Row :=
  (c, v) :: r.filter (fun p => ¬ p.1 = c)

/-- Remove one column binding from a row. -/
def Row.drop (r : Row) (c : String) : Row :=
  r.filter (fun p => ¬ p.1 = c)

/-- A dataframe: the column list plus the rows. -/
structure DF where
  cols : List String
  rows : List Row
deriving DecidableEq, Repr

/-- Errors the engine can raise. -/
inductive PyError where
  | corrupted (missing : List String)
  | keyError (k : String)
  | indexError
  | valueError
deriving DecidableEq, Repr

instance {ε α : Type} [DecidableEq ε] [DecidableEq α] : DecidableEq (Except ε α) := fun x y =>
  match x, y with
  | .ok a, .ok b => decidable_of_iff (a = b) (by simp)
  | .error a, .error b => decidable_of_iff (a = b) (by simp)
  | .ok _, .error _ => isFalse (by simp)
  | .error _, .ok _ => isFalse (by simp)

/-- `df[c]` at the frame level: `KeyError` when the column is absent. -/
def DF.colE (df : DF) (c : String) : Except PyError (List Cell) :=
  if c ∈ df.cols then .ok (df.rows.map (fun r => r.get c)) else .error (.keyError c)

/-- Row-level field access (`series[c]` for a row extracted by `iloc`):
`KeyError` when the column is absent from the frame. -/
def getE (cols : List String) (r : Row) (c : String) : Except PyError Cell :=
  if c ∈ cols then .ok (r.get c) else .error (.keyError c)

/-- Add a column computed per-row (`df[c] = f(df)`). -/
def DF.setCol (df : DF) (c : String) (f : Row → Cell) : DF :=
  { cols := if c ∈ df.cols then df.cols else df.cols ++ [c]
    rows := df.rows.map (fun r => r.set c (f r)) }

/-- `df.fillna(0)`: materialise every row over every column, replacing
missing values by `0`. -/
def DF.fillna0 (df : DF) : DF :=
  { cols := df.cols
    rows := df.rows.map (fun r =>
      df.cols.map (fun c =>
        (c, if (r.get c).isNA then Cell.num (PVal.fin 0) else r.get c))) }

/-- `df[cols]` column selection. -/
def DF.select (df : DF) (cs : List String) : DF :=
  { cols := cs, rows := df.rows.map (fun r => r.filter (fun p => p.1 ∈ cs)) }

/-! ### Sort order used by `sort_values`

`df.sort_values(by=["time", "slot"])` sorts by time then slot with NaN
placed last (`na_position='last'`).  Each value is ranked
`-inf < finite < +inf < NaN`, finite values by their rational. -/

/-- Rank of a float value in pandas sort order (NaN last). -/
def pvRank : PVal → ℤ
  | PVal.ninf => 0
  | PVal.fin _ => 1
  | PVal.inf => 2
  | PVal.nan => 3

/-- The finite part of a value, for sorting. -/
def pvQ : PVal → ℚ
  | PVal.fin q => q
  | _ => 0

/-- Sort key of one float value. -/
def pvKey (v : PVal) : Lex (ℤ × ℚ) := toLex (pvRank v, pvQ v)

/-- Sort key of a row for `sort_values(by=["time", "slot"])`. -/
def rowKey (r : Row) : Lex ((Lex (ℤ × ℚ)) × (Lex (ℤ × ℚ))) :=
  toLex (pvKey (r.get "time").pv, pvKey (r.get "slot").pv)

/-- The `(time, slot)` sort relation on rows. -/
def rowLE (a b : Row) : Prop := rowKey a ≤ rowKey b

instance : DecidableRel rowLE :=
  fun a b => inferInstanceAs (Decidable (rowKey a ≤ rowKey b))

instance : IsTotal Row rowLE := ⟨fun a b => le_total (rowKey a) (rowKey b)⟩

instance : IsTrans Row rowLE := ⟨fun _ _ _ => le_trans⟩

/-- Sort key for `sort_values(by='minute')`. -/
def rowMinuteKey (r : Row) : Lex (ℤ × ℚ) := pvKey (r.get "minute").pv

/-- The minute sort relation on rows. -/
def rowMinuteLE (a b : Row) : Prop := rowMinuteKey a ≤ rowMinuteKey b

instance : DecidableRel rowMinuteLE :=
  fun a b => inferInstanceAs (Decidable (rowMinuteKey a ≤ rowMinuteKey b))

/-! ### Entities and constants from the source -/

/-- `entities.Team`. -/
inductive Team where
  | radiant
  | dire
deriving DecidableEq, Repr

/-- `Team.value` (the string payload of the enum). -/
def Team.value : Team → String
  | Team.radiant => "radiant"
  | Team.dire => "dire"

/-- `entities.Benchmark`. -/
structure Benchmark where
  gold_per_min : ℚ
  xp_per_min : ℚ
  kills_per_min : ℚ
  last_hits_per_min : ℚ
  hero_damage_per_min : ℚ
  hero_healing_per_min : ℚ
  tower_damage : ℚ
deriving DecidableEq, Repr

/-- `HeroBenchmarks.get_benchmark`: a dictionary lookup, `KeyError` when the
hero id / percentile is absent. -/
def getBenchmark (bt : ℤ → ℤ → Option Benchmark) (hid pct : ℤ) :
    Except PyError Benchmark :=
  match bt hid pct with
  | some b => .ok b
  | none => .error (.keyError "benchmark")

/-- `data_extractor.REQUIRED_FIELDS` (the three required event types), in a
canonical order (the Python value is a set). -/
def requiredTypes : List String :=
  ["interval", "DOTA_COMBATLOG_DAMAGE", "DOTA_COMBATLOG_TEAM_BUILDING_KILL"]

/-- `Settings.PER_MINUTE_COLUMNS` default. -/
def perMinuteColumns : List String := ["gold", "xp"]

/-! ### data_extractor.py: module-level functions -/

/-- `get_df_by_type`. -/
def getDfByType (df : DF) (t : String) : DF :=
  { df with rows := df.rows.filter (fun r => r.get "type" == Cell.str t) }

/-- `extract_winning_team`: the last row (`iloc[-1]`, `IndexError` when
empty) of the building-kill sub-frame; radiant iff its `targetname` is
`npc_dota_badguys_fort`. -/
def extractWinningTeam (df : DF) : Except PyError Team :=
  match (getDfByType df "DOTA_COMBATLOG_TEAM_BUILDING_KILL").rows.getLast? with
  | none => .error .indexError
  | some r =>
      if r.get "targetname" = Cell.str "npc_dota_badguys_fort" then .ok Team.radiant
      else .ok Team.dire

/-- `split_data_by_player`: one row-list per slot `0 .. max_players - 1`. -/
def splitDataByPlayer (df : DF) (maxPlayers : ℕ) : List (List Row) :=
  (List.range maxPlayers).map (fun (s : ℕ) =>
    df.rows.filter (fun r => r.get "slot" == Cell.num (PVal.fin (s : ℚ))))

/-- `get_match_length`: max minus min of `time` over `interval`-typed rows
of the raw frame. -/
def getMatchLength (df : DF) : Except PyError PVal := do
  let temp := getDfByType df "interval"
  let tcol ← temp.colE "time"
  pure (PVal.psub (PVal.aggMax (tcol.map Cell.pv)) (PVal.aggMin (tcol.map Cell.pv)))

/-- `df['time'] >= 0` on one value (`NaN >= 0` is false). -/
def pvGE0 : PVal → Bool
  | PVal.fin q => decide (0 ≤ q)
  | PVal.inf => true
  | PVal.nan => false
  | PVal.ninf => false

/-- Python `int(x)` on a float cell value: `ValueError` on NaN (and the
analogous `OverflowError` on infinities is folded into the same
constructor). -/
def pvToIntE : PVal → Except PyError ℤ
  | PVal.fin q => .ok (pyTrunc q)
  | _ => .error .valueError

/-- Python `round(x)` (no ndigits) on a float value: errors on non-finite. -/
def pvRoundE : PVal → Except PyError ℤ
  | PVal.fin q => .ok (pyRound q)
  | _ => .error .valueError

/-- `q * v` for a rational constant and a float value. -/
def pmulQ (q : ℚ) : PVal → PVal
  | PVal.fin a => PVal.fin (q * a)
  | PVal.nan => PVal.nan
  | PVal.inf => if 0 < q then PVal.inf else if q < 0 then PVal.ninf else PVal.nan
  | PVal.ninf => if 0 < q then PVal.ninf else if q < 0 then PVal.inf else PVal.nan

/-- `GroupBy`-style `last` aggregation: last non-NaN cell (pandas
`aggfunc="last"` skips missing values), NaN if none. -/
def aggLastCell (l : List Cell) : Cell :=
  ((l.reverse.find? (fun c => ¬ c.isNA)).getD (Cell.num PVal.nan))

/-- `GroupBy`-style `first` aggregation: first non-NaN cell. -/
def aggFirstCell (l : List Cell) : Cell :=
  ((l.find? (fun c => ¬ c.isNA)).getD (Cell.num PVal.nan))

/-! ### pd.merge (left join) -/

/-- Key equality between a left and a right row. -/
def rowsMatch (lr : Row) (lk : List String) (rr : Row) (rk : List String) : Bool :=
  (lk.map (fun c => lr.get c)) == (rk.map (fun c => rr.get c))

/-- `pd.merge(left, right, left_on=lk, right_on=rk, how='left')`: every left
row is kept; unmatched left rows get NaN for the right-only columns
(realised here by leaving them unbound, which reads as NaN); right columns
whose name already occurs on the left (here only the shared key `block`)
are not duplicated. -/
def mergeLeft (left right : DF) (lk rk : List String) : DF :=
  { cols := left.cols ++ right.cols.filter (fun c => decide (c ∉ left.cols))
    rows := left.rows.flatMap (fun lr =>
      match right.rows.filter (fun rr => rowsMatch lr lk rr rk) with
      | [] => [lr]
      | ms => ms.map (fun rr =>
          lr ++ rr.filter (fun p => decide (p.1 ∉ left.cols)))) }

/-! ### DataExtractor methods -/

/-- `DataExtractor.preprocess_data`: drop rows with `time < 0` (NaN
compares false, so it is dropped too), add `minute = time // 60` and
`block = minute // w`, sort by `(time, slot)`. -/
def preprocessData (w : ℤ) (df : DF) : DF :=
  let df1 : DF := { df with rows := df.rows.filter (fun r => pvGE0 (r.get "time").pv) }
  let df2 := df1.setCol "minute" (fun r => Cell.num ((r.get "time").pv.pfdiv 60))
  let df3 := df2.setCol "block" (fun r => Cell.num ((r.get "minute").pv.pfdiv (w : ℚ)))
  { df3 with rows := List.insertionSort rowLE df3.rows }

/-- `DataExtractor.add_hero_name`: attach `hero_name` and
`localized_hero_name` via the hero-info table; `int(hero_id)` fails on a
missing (NaN) hero id. -/
def addHeroName (hi : ℤ → String × String) (df : DF) : Except PyError DF := do
  let _ ← df.colE "hero_id"
  let rows1 ← df.rows.mapM (fun r => do
    let hid ← pvToIntE (r.get "hero_id").pv
    pure (r.set "hero_name" (Cell.str (hi hid).1)))
  let rows2 ← rows1.mapM (fun r => do
    let hid ← pvToIntE (r.get "hero_id").pv
    pure (r.set "localized_hero_name" (Cell.str (hi hid).2)))
  let cols1 := if "hero_name" ∈ df.cols then df.cols else df.cols ++ ["hero_name"]
  let cols2 := if "localized_hero_name" ∈ cols1 then cols1 else cols1 ++ ["localized_hero_name"]
  pure { cols := cols2, rows := rows2 }

/-- `attackername.str.startswith('npc_dota_hero_')` on one cell (spelled
out on the character list so that it evaluates in the kernel). -/
def nameStarts (c : Cell) : Bool :=
  match c with
  | Cell.str s => List.isPrefixOf "npc_dota_hero_".data s.data
  | Cell.num _ => false

/-- The rows of a `groupby`-group for one key pair. -/
def groupRows (rows : List Row) (c1 c2 : String) (k : Cell × Cell) : List Row :=
  rows.filter (fun r => r.get c1 == k.1 && r.get c2 == k.2)

/-- The group keys of `groupby(by=[c1, c2])`: distinct observed key pairs,
groups with a NaN key dropped (`dropna=True`); first-occurrence order
(pandas sorts groups by key, which no claim depends on). -/
def groupKeys (rows : List Row) (c1 c2 : String) : List (Cell × Cell) :=
  ((rows.map (fun r => (r.get c1, r.get c2))).dedup).filter
    (fun k => ¬ k.1.isNA && ¬ k.2.isNA)

/-- `DataExtractor.aggregate_damage_data`: keep hero-vs-hero damage events,
sum `value` per `(block, attackername)` and keep the last `minute`. -/
def aggregateDamageData (df : DF) : Except PyError DF := do
  let _ ← df.colE "attackername"
  let rows1 := df.rows.filter (fun r => nameStarts (r.get "attackername"))
  let _ ← df.colE "targetname"
  let rows2 := rows1.filter (fun r => nameStarts (r.get "targetname"))
  let _ ← df.colE "attackerhero"
  let _ ← df.colE "targethero"
  let rows3 := rows2.filter (fun r =>
    r.get "attackerhero" == Cell.num (PVal.fin 1) &&
    r.get "targethero" == Cell.num (PVal.fin 1))
  let _ ← df.colE "block"
  let _ ← df.colE "value"
  let _ ← df.colE "minute"
  let keys := groupKeys rows3 "block" "attackername"
  let outRows := keys.map (fun k =>
    let g := groupRows rows3 "block" "attackername" k
    [("block", k.1), ("attackername", k.2),
     ("damage_dealt_to_heroes",
       Cell.num (PVal.aggSum (g.map (fun r => (r.get "value").pv)))),
     ("minute", aggLastCell (g.map (fun r => r.get "minute")))])
  pure { cols := ["block", "attackername", "damage_dealt_to_heroes", "minute"]
         rows := outRows }

/-- The fields `aggregate_interval_data` validates, in source order. -/
def requiredIntervalFields (perMin : List String) : List String :=
  ["time", "minute", "level", "hero_id", "teamfight_participation",
   "kills", "deaths", "assists"] ++ perMin ++ ["denies", "lh", "slot"]

/-- The required fields absent from the frame (the payload of the
`CorruptedDataError`; Python reports them as a set, canonicalised here to
source order). -/
def missingIntervalFields (perMin : List String) (df : DF) : List String :=
  ((requiredIntervalFields perMin).filter (fun c => decide (c ∉ df.cols))).dedup

/-- The second `groupby` pass of `aggregate_interval_data` on one group:
windowed `max - min` gains for each rate column plus denies / last hits,
the derived KDA, and the group's `minute` / `slot`. -/
def secondAggRow (perMin : List String) (g : List Row) : Row :=
  (perMin.map (fun c =>
    (c, Cell.num (PVal.psub
          (PVal.aggMax (g.map (fun r => (r.get c).pv)))
          (PVal.aggMin (g.map (fun r => (r.get c).pv)))))))
  ++ [("denies", Cell.num (PVal.psub
        (PVal.aggMax (g.map (fun r => (r.get "denies").pv)))
        (PVal.aggMin (g.map (fun r => (r.get "denies").pv))))),
      ("lh", Cell.num (PVal.psub
        (PVal.aggMax (g.map (fun r => (r.get "lh").pv)))
        (PVal.aggMin (g.map (fun r => (r.get "lh").pv))))),
      ("kda", Cell.num (PVal.pdiv
        (PVal.padd (PVal.aggMax (g.map (fun r => (r.get "kills").pv)))
                   (PVal.aggMax (g.map (fun r => (r.get "assists").pv))))
        (PVal.pmaxFloor1 (PVal.aggMax (g.map (fun r => (r.get "deaths").pv)))))),
      ("minute", Cell.num (PVal.aggMax (g.map (fun r => (r.get "minute").pv)))),
      ("slot", Cell.num (PVal.aggMax (g.map (fun r => (r.get "slot").pv))))]

/-- Columns of the first `groupby` aggregation frame. -/
def firstAggCols : List String :=
  ["block", "slot", "time", "block_start", "minute", "level", "hero_id",
   "teamfight_participation", "kills", "deaths", "assists"]

/-- The first `groupby` pass of `aggregate_interval_data` on one group. -/
def firstAggRow (g : List Row) (k : Cell × Cell) : Row :=
  [("block", k.1), ("slot", k.2),
   ("time", aggLastCell (g.map (fun r => r.get "time"))),
   ("block_start", aggFirstCell (g.map (fun r => r.get "time"))),
   ("minute", aggLastCell (g.map (fun r => r.get "minute"))),
   ("level", aggLastCell (g.map (fun r => r.get "level"))),
   ("hero_id", aggLastCell (g.map (fun r => r.get "hero_id"))),
   ("teamfight_participation",
     Cell.num (PVal.aggSum (g.map (fun r => (r.get "teamfight_participation").pv)))),
   ("kills", Cell.num (PVal.aggMax (g.map (fun r => (r.get "kills").pv)))),
   ("deaths", Cell.num (PVal.aggMax (g.map (fun r => (r.get "deaths").pv)))),
   ("assists", Cell.num (PVal.aggMax (g.map (fun r => (r.get "assists").pv))))]

/-- `DataExtractor.aggregate_interval_data`: validate the required fields
(`CorruptedDataError` naming the missing ones, before any aggregation),
aggregate per `(block, slot)` in two passes, merge the passes on
`(minute, slot)`, attach hero names, and zero-fill. -/
def aggregateIntervalData (perMin : List String) (hi : ℤ → String × String)
    (df : DF) : Except PyError DF :=
  if missingIntervalFields perMin df = [] then do
    let _ ← df.colE "block"
    let keys := groupKeys df.rows "block" "slot"
    let firstDF : DF :=
      { cols := firstAggCols
        rows := keys.map (fun k => firstAggRow (groupRows df.rows "block" "slot" k) k) }
    let secondDF : DF :=
      { cols := perMin ++ ["denies", "lh", "kda", "minute", "slot"]
        rows := keys.map (fun k => secondAggRow perMin (groupRows df.rows "block" "slot" k)) }
    let merged := mergeLeft firstDF secondDF ["minute", "slot"] ["minute", "slot"]
    let withNames ← addHeroName hi merged
    pure withNames.fillna0
  else
    .error (.corrupted (missingIntervalFields perMin df))

/-- The per-row effect of renaming `damage_dealt_to_heroes` to `dpm`. -/
def renameDamage (r : Row) : Row :=
  r.map (fun p => if p.1 = "damage_dealt_to_heroes" then ("dpm", p.2) else p)

/-- `DataExtractor.normalize_per_minute_data`: `block_length = time -
block_start`, rename the damage column to `dpm`, convert every rate column
and `dpm` by `value / block_length * 60` (note: no 1-second floor), drop
`block_length`. -/
def normalizePerMinuteData (perMin : List String) (df : DF) : DF :=
  let df1 := df.setCol "block_length" (fun r =>
    Cell.num (PVal.psub (r.get "time").pv (r.get "block_start").pv))
  let df2 : DF :=
    { cols := df1.cols.map (fun c => if c = "damage_dealt_to_heroes" then "dpm" else c)
      rows := df1.rows.map renameDamage }
  let df3 := (perMin ++ ["dpm"]).foldl (fun d c =>
    d.setCol c (fun r =>
      Cell.num (PVal.pmul60 (PVal.pdiv (r.get c).pv (r.get "block_length").pv)))) df2
  { cols := df3.cols.filter (fun c => decide (c ≠ "block_length"))
    rows := df3.rows.map (fun r => r.drop "block_length") }

/-! ### compute_final_stats -/

/-- `interval_df["time"].max()`. -/
def lastSecondCell (idf : DF) : Cell :=
  Cell.num (PVal.aggMax (idf.rows.map (fun r => (r.get "time").pv)))

/-- `final_df = interval_df[interval_df["time"] == last_second]`. -/
def finalRowsOf (idf : DF) : List Row :=
  idf.rows.filter (fun r => r.get "time" == lastSecondCell idf)

/-- `final_df.loc[final_df["slot"] == slot].iloc[-1]` as an `Option`. -/
def terminalRow (idf : DF) (s : ℤ) : Option Row :=
  ((finalRowsOf idf).filter (fun r => r.get "slot" == Cell.num (PVal.fin (s : ℚ)))).getLast?

/-- The loop body of `compute_final_stats` for one slot: the row at the
overall last second (`IndexError` when the slot has none), its cumulative
counters read directly, the derived total KDA, and the summed damage of
the slot's hero. -/
def finalStatsSlot (hi : ℤ → String × String) (idf ddf : DF) (sn : ℕ) :
    Except PyError (ℤ × List (String × PVal)) := do
  let s : ℤ := sn
  let _ ← idf.colE "slot"
  match terminalRow idf s with
  | none => .error .indexError
  | some row => do
      let hidCell ← getE idf.cols row "hero_id"
      let hid ← pvToIntE hidCell.pv
      let heroName := (hi hid).1
      let _ ← ddf.colE "attackername"
      let slotCombat := ddf.rows.filter (fun rr =>
        rr.get "attackername" == Cell.str heroName)
      let kills ← getE idf.cols row "kills"
      let assists ← getE idf.cols row "assists"
      let deaths ← getE idf.cols row "deaths"
      let totalKda := PVal.pdiv (PVal.padd kills.pv assists.pv)
        (PVal.pmaxFloor1 deaths.pv)
      let gold ← getE idf.cols row "gold"
      let lh ← getE idf.cols row "lh"
      let denies ← getE idf.cols row "denies"
      let xp ← getE idf.cols row "xp"
      let _ ← ddf.colE "damage_dealt_to_heroes"
      let dmg := PVal.aggSum (slotCombat.map (fun r =>
        (r.get "damage_dealt_to_heroes").pv))
      pure (s, [("Total gold", gold.pv), ("Total last hits", lh.pv),
                ("Total denies", denies.pv), ("Total xp", xp.pv),
                ("Total kills", kills.pv), ("Total deaths", deaths.pv),
                ("Total assists", assists.pv),
                ("Total KDA", PVal.pround1 totalKda),
                ("Total damage", dmg)])

/-- `DataExtractor.compute_final_stats`: `finalStatsSlot` over slots
`0 .. max_players - 1`. -/
def computeFinalStats (maxPlayers : ℕ) (hi : ℤ → String × String)
    (idf ddf : DF) : Except PyError (List (ℤ × List (String × PVal))) := do
  let _ ← idf.colE "time"
  (List.range maxPlayers).mapM (finalStatsSlot hi idf ddf)

/-! ### post_processing.py -/

/-- `get_player_team`. -/
def getPlayerTeam (slot : ℤ) : Team :=
  if slot < 5 then Team.radiant else Team.dire

/-- `PostProcessor._postprocess_benchmarks`: the comparison totals,
`int(...)` (truncation) for gold and xp, `round(...)` for kills, last hits
and damage. -/
def postprocessBenchmarks (bt : ℤ → ℤ → Option Benchmark) (pct : ℤ)
    (hid : ℤ) (matchLength : PVal) : Except PyError (List (String × ℤ)) := do
  let b ← getBenchmark bt hid pct
  let ml := PVal.pdiv matchLength (PVal.fin 60)
  let g ← pvToIntE (pmulQ b.gold_per_min ml)
  let x ← pvToIntE (pmulQ b.xp_per_min ml)
  let k ← pvRoundE (pmulQ b.kills_per_min ml)
  let lhv ← pvRoundE (pmulQ b.last_hits_per_min ml)
  let d ← pvRoundE (pmulQ b.hero_damage_per_min ml)
  pure [("Total gold", g), ("Total xp", x), ("Total kills", k),
        ("Total last hits", lhv), ("Total damage", d)]

/-- `post_processing` column lists. -/
def columnsToClean : List String :=
  ["gold", "xp", "lh", "denies", "kills", "deaths", "assists", "kda", "dpm",
   "teamfight_participation"]

/-- Columns cast with `astype(int)`. -/
def intColumns : List String :=
  ["gold", "xp", "lh", "denies", "kills", "deaths", "assists", "dpm",
   "teamfight_participation"]

/-- `_postprocess_player_data`: sort by minute, replace NaN by 0 in the
stat columns, cast the integer columns (`astype(int)` truncates, errors on
non-finite values), and emit one dictionary per block row. -/
def postprocessPlayerData (cols : List String) (rows : List Row) :
    Except PyError (List (List (String × PVal))) := do
  let _ ← (if "minute" ∈ cols then Except.ok () else Except.error (PyError.keyError "minute"))
  let sorted := List.insertionSort rowMinuteLE rows
  let _ ← (match columnsToClean.find? (fun c => decide (c ∉ cols)) with
           | some c => Except.error (PyError.keyError c)
           | none => Except.ok ())
  let cleaned := sorted.map (fun r =>
    columnsToClean.foldl (fun rr c =>
      rr.set c (if (rr.get c).isNA then Cell.num (PVal.fin 0) else rr.get c)) r)
  let casted ← cleaned.mapM (fun r =>
    intColumns.foldlM (fun rr c => do
      let z ← pvToIntE (rr.get c).pv
      pure (rr.set c (Cell.num (PVal.fin (z : ℚ))))) r)
  pure (casted.map (fun r =>
    [("minute", (r.get "minute").pv),
     ("gold per minute", (r.get "gold").pv),
     ("last hits", (r.get "lh").pv),
     ("denies", (r.get "denies").pv),
     ("xp per minute", (r.get "xp").pv),
     ("kills", (r.get "kills").pv),
     ("deaths", (r.get "deaths").pv),
     ("assists", (r.get "assists").pv),
     ("KDA", PVal.pround1 (r.get "kda").pv),
     ("damage per minute", (r.get "dpm").pv),
     ("teamfight seconds", (r.get "teamfight_participation").pv)]))

/-- `_postprocess_final_stats`: `int(value)` on every total. -/
def postprocessFinalStats (fs : List (String × PVal)) :
    Except PyError (List (String × ℤ)) :=
  fs.mapM (fun p => do
    let z ← pvToIntE p.2
    pure (p.1, z))

/-- The per-player output object assembled by `postprocess_data`. -/
structure PlayerSummary where
  team : String
  win : Bool
  hero : String
  interval : ℤ
  stats : List (List (String × PVal))
  finalStats : List (String × ℤ)
  benchmarks : List (String × ℤ)
deriving DecidableEq, Repr

/-- `PostProcessor.postprocess_data` (with `_postprocess_common_data`
inlined): hero id from the first unique value (`IndexError` on an empty
slot frame), team and win flag, per-block stats, final totals, and
benchmark comparison. -/
def postprocessData (w : ℤ) (bt : ℤ → ℤ → Option Benchmark) (pct : ℤ)
    (cols : List String) (rows : List Row) (winning : Team)
    (finalStats : List (ℤ × List (String × PVal))) (matchLength : PVal)
    (slot : ℤ) : Except PyError PlayerSummary := do
  let _ ← (if "hero_id" ∈ cols then Except.ok () else Except.error (PyError.keyError "hero_id"))
  let hidCell ← (match ((rows.map (fun r => r.get "hero_id")).dedup).head? with
                 | some c => Except.ok c
                 | none => Except.error PyError.indexError)
  let hid ← pvToIntE hidCell.pv
  let _ ← (if "localized_hero_name" ∈ cols then Except.ok ()
           else Except.error (PyError.keyError "localized_hero_name"))
  let heroCell ← (match ((rows.map (fun r => r.get "localized_hero_name")).dedup).head? with
                  | some c => Except.ok c
                  | none => Except.error PyError.indexError)
  let heroName := (match heroCell with | Cell.str s => s | Cell.num _ => "")
  let team := (getPlayerTeam slot).value
  let win := team == winning.value
  let stats ← postprocessPlayerData cols rows
  let fsSlot ← (match finalStats.find? (fun p => p.1 == slot) with
                | some p => Except.ok p.2
                | none => Except.error (PyError.keyError "final_stats"))
  let fsInt ← postprocessFinalStats fsSlot
  let bench ← postprocessBenchmarks bt pct hid matchLength
  pure { team := team, win := win, hero := heroName, interval := w,
         stats := stats, finalStats := fsInt, benchmarks := bench }

/-! ### process_replay_data -/

/-- The required event types absent from the stream (payload of the
top-level `CorruptedDataError`; canonicalised to `requiredTypes` order). -/
def missingTypesOf (typeCol : List Cell) : List String :=
  requiredTypes.filter (fun t => decide (¬ typeCol.contains (Cell.str t)))

/-- `DataExtractor.process_replay_data`: the whole per-match pipeline in
source order: required-type check, match length, preprocessing, winner
extraction, damage aggregation, final stats, interval aggregation, the
left join, rate normalization, and per-slot post-processing. -/
def processReplayData (w : ℤ) (maxPlayers : ℕ) (perMin : List String)
    (pct : ℤ) (hi : ℤ → String × String) (bt : ℤ → ℤ → Option Benchmark)
    (df : DF) : Except PyError (List (ℤ × PlayerSummary)) := do
  let typeCol ← df.colE "type"
  if missingTypesOf typeCol = [] then do
    let matchLength ← getMatchLength df
    let dfp := preprocessData w df
    let winner ← extractWinningTeam dfp
    let idf := getDfByType dfp "interval"
    let ddf := getDfByType dfp "DOTA_COMBATLOG_DAMAGE"
    let pdd ← aggregateDamageData ddf
    let fs ← computeFinalStats maxPlayers hi idf pdd
    let pid ← aggregateIntervalData perMin hi idf
    let combined := mergeLeft pid
      (pdd.select ["block", "attackername", "damage_dealt_to_heroes"])
      ["block", "hero_name"] ["block", "attackername"]
    let combined2 := normalizePerMinuteData perMin combined
    let slots := splitDataByPlayer combined2 maxPlayers
    ((List.range maxPlayers).zip slots).mapM (fun p => do
      let ps ← postprocessData w bt pct combined2.cols p.2 winner fs matchLength (p.1 : ℤ)
      pure ((p.1 : ℤ), ps))
  else
    .error (.corrupted (missingTypesOf typeCol))

/-! ### Spec-side definition for the winner claim

`winnerFromBuildings` states the winner rule directly on the
building-destruction sub-stream: keep events with `time >= 0`, sort them
by `(time, slot)`, and look at the last one's target.  The claim C9 says
the code uses the last event in original order; the theorem below relates
the code to this sorted version instead. -/
def winnerFromBuildings (rows : List Row) : Except PyError Team :=
  match (List.insertionSort rowLE
      (rows.filter (fun r => pvGE0 (r.get "time").pv))).getLast? with
  | none => .error .indexError
  | some r =>
      if r.get "targetname" = Cell.str "npc_dota_badguys_fort" then .ok Team.radiant
      else .ok Team.dire

/-! ### Generic list and row lemmas -/

@[simp] theorem ok_bind {ε α β : Type} (a : α) (f : α → Except ε β) :
    ((Except.ok a : Except ε α) >>= f) = f a := rfl

@[simp] theorem error_bind {ε α β : Type} (e : ε) (f : α → Except ε β) :
    ((Except.error e : Except ε α) >>= f) = Except.error e := rfl

theorem find?_filter_comm {α : Type} (p q : α → Bool) (l : List α)
    (h : ∀ a, p a = true → q a = true) : (l.filter q).find? p = l.find? p := by
  induction l with
  | nil => rfl
  | cons a l ih =>
      by_cases hp : p a = true
      · rw [List.filter_cons, if_pos (h a hp)]
        rw [List.find?_cons_of_pos _ hp, List.find?_cons_of_pos _ hp]
      · rw [List.find?_cons_of_neg _ hp]
        rw [List.filter_cons]
        by_cases hq : q a = true
        · rw [if_pos hq, List.find?_cons_of_neg _ hp, ih]
        · rw [if_neg hq, ih]

theorem Row.get_set_self (r : Row) (c : String) (v : Cell) :
    (r.set c v).get c = v := by
  simp [Row.set, Row.get, List.find?_cons_of_pos]

theorem Row.get_set_ne (r : Row) (c c' : String) (v : Cell) (h : c' ≠ c) :
    (r.set c v).get c' = r.get c' := by
  unfold Row.set Row.get
  rw [List.find?_cons_of_neg _ (by simpa using Ne.symm h)]
  rw [find?_filter_comm]
  intro a ha
  simp only [decide_eq_true_eq] at ha ⊢
  rw [ha]
  exact h

theorem Row.get_drop_ne (r : Row) (c c' : String) (h : c' ≠ c) :
    (r.drop c).get c' = r.get c' := by
  unfold Row.drop Row.get
  rw [find?_filter_comm]
  intro a ha
  simp only [decide_eq_true_eq] at ha ⊢
  rw [ha]
  exact h

/-- Reading an association row materialised over a column list. -/
theorem Row.get_of_map_assoc (cols : List String) (f : String → Cell) (c : String) :
    Row.get (cols.map (fun c => (c, f c))) c =
      if c ∈ cols then f c else Cell.num PVal.nan := by
  induction cols with
  | nil => simp [Row.get]
  | cons a l ih =>
      by_cases h : c = a
      · subst h
        simp [Row.get, List.find?_cons_of_pos]
      · unfold Row.get at ih ⊢
        rw [List.map_cons, List.find?_cons_of_neg _ (by simp [Ne.symm h])]
        rw [ih]
        simp [List.mem_cons, h]

theorem renameDamage_get_ne (r : Row) (c : String) (h1 : c ≠ "dpm")
    (h2 : c ≠ "damage_dealt_to_heroes") :
    (renameDamage r).get c = r.get c := by
  induction r with
  | nil => rfl
  | cons p r ih =>
      unfold renameDamage at ih ⊢
      rw [List.map_cons]
      by_cases hd : p.1 = "damage_dealt_to_heroes"
      · rw [if_pos hd]
        unfold Row.get
        rw [List.find?_cons_of_neg _ (by simpa using Ne.symm h1)]
        rw [List.find?_cons_of_neg _ (by simp [hd]; exact Ne.symm h2)]
        exact ih
      · rw [if_neg hd]
        by_cases hc : p.1 = c
        · unfold Row.get
          rw [List.find?_cons_of_pos _ (by simpa using hc),
              List.find?_cons_of_pos _ (by simpa using hc)]
        · unfold Row.get
          rw [List.find?_cons_of_neg _ (by simpa using hc),
              List.find?_cons_of_neg _ (by simpa using hc)]
          exact ih

theorem renameDamage_get_dpm (r : Row)
    (h : ∀ q ∈ r, q.1 ≠ "dpm") :
    (renameDamage r).get "dpm" = r.get "damage_dealt_to_heroes" := by
  induction r with
  | nil => rfl
  | cons p r ih =>
      unfold renameDamage at ih ⊢
      rw [List.map_cons]
      by_cases hd : p.1 = "damage_dealt_to_heroes"
      · rw [if_pos hd]
        unfold Row.get
        rw [List.find?_cons_of_pos _ (by simp),
            List.find?_cons_of_pos _ (by simpa using hd)]
        simp
      · rw [if_neg hd]
        unfold Row.get
        rw [List.find?_cons_of_neg _ (by simpa using h p (by simp)),
            List.find?_cons_of_neg _ (by simpa using hd)]
        exact ih fun q hq => h q (by simp [hq])

theorem DF.foldl_setCol_rows (cs : List String) (g : String → Row → Cell) :
    ∀ d : DF, (cs.foldl (fun d c => d.setCol c (g c)) d).rows
      = d.rows.map (fun r => cs.foldl (fun rr c => rr.set c (g c rr)) r) := by
  induction cs with
  | nil => intro d; simp
  | cons c cs ih =>
      intro d
      rw [List.foldl_cons, ih]
      simp only [DF.setCol, List.map_map]
      rfl

/-- The per-row effect of `preprocess_data`'s two derived columns. -/
def addDerivedCols (w : ℤ) (r : Row) : Row :=
  (r.set "minute" (Cell.num ((r.get "time").pv.pfdiv 60))).set "block"
    (Cell.num (((r.get "time").pv.pfdiv 60).pfdiv (w : ℚ)))

/-- The rows of `preprocess_data` as sort-of-map-of-filter. -/
theorem preprocessData_rows (w : ℤ) (df : DF) :
    (preprocessData w df).rows
      = List.insertionSort rowLE
        ((df.rows.filter (fun r => pvGE0 (r.get "time").pv)).map (addDerivedCols w)) := by
  simp only [preprocessData, DF.setCol, List.map_map, addDerivedCols]
  congr 1

/-! ### Stability lemmas: `insertionSort` commutes with `filter` and with
key-preserving maps -/

theorem orderedInsert_of_all {α : Type} (r : α → α → Prop) [DecidableRel r]
    (a : α) (l : List α) (h : ∀ c ∈ l, r a c) :
    l.orderedInsert r a = a :: l := by
  cases l with
  | nil => rfl
  | cons c l => exact List.orderedInsert_of_le r l (h c (by simp))

theorem orderedInsert_filter_pos {α : Type} (r : α → α → Prop) [DecidableRel r]
    [IsTrans α r] (p : α → Bool) (a : α) :
    ∀ l : List α, List.Sorted r l → p a = true →
      (l.orderedInsert r a).filter p = (l.filter p).orderedInsert r a := by
  intro l
  induction l with
  | nil => intro _ hp; simp [hp]
  | cons b l ih =>
      intro hs hp
      by_cases hab : r a b
      · have hall : ∀ c ∈ List.filter p l, r a c := fun c hc =>
          Trans.trans hab (List.rel_of_sorted_cons hs c (List.mem_of_mem_filter hc))
        by_cases hpb : p b = true
        · simp [List.orderedInsert, hab, hp, hpb, List.filter_cons]
        · simp [List.orderedInsert, hab, hp, hpb, List.filter_cons,
            orderedInsert_of_all r a (List.filter p l) hall]
      · by_cases hpb : p b = true
        · simp [List.orderedInsert, hab, hp, hpb, List.filter_cons, ih hs.of_cons hp]
        · simp [List.orderedInsert, hab, hp, hpb, List.filter_cons, ih hs.of_cons hp]

theorem orderedInsert_filter_neg {α : Type} (r : α → α → Prop) [DecidableRel r]
    (p : α → Bool) (a : α) (hp : p a = false) :
    ∀ l : List α, (l.orderedInsert r a).filter p = l.filter p := by
  intro l
  induction l with
  | nil => simp [hp]
  | cons b l ih =>
      by_cases hab : r a b
      · simp [List.orderedInsert, hab, List.filter_cons, hp]
      · by_cases hpb : p b = true
        · simp [List.orderedInsert, hab, List.filter_cons, hpb, ih]
        · simp [List.orderedInsert, hab, List.filter_cons, hpb, ih]

theorem insertionSort_filter {α : Type} (r : α → α → Prop) [DecidableRel r]
    [IsTotal α r] [IsTrans α r] (p : α → Bool) (l : List α) :
    (List.insertionSort r l).filter p = List.insertionSort r (l.filter p) := by
  induction l with
  | nil => rfl
  | cons a l ih =>
      rw [List.insertionSort, List.filter_cons]
      by_cases hp : p a = true
      · rw [if_pos hp, List.insertionSort]
        rw [orderedInsert_filter_pos r p a _ (List.sorted_insertionSort r l) hp, ih]
      · rw [if_neg hp]
        rw [orderedInsert_filter_neg r p a (by simpa using hp), ih]

theorem orderedInsert_map {α : Type} (r : α → α → Prop) [DecidableRel r]
    (f : α → α) (hf : ∀ a b, r (f a) (f b) ↔ r a b) (a : α) :
    ∀ l : List α, (l.map f).orderedInsert r (f a) = (l.orderedInsert r a).map f := by
  intro l
  induction l with
  | nil => rfl
  | cons b l ih =>
      rw [List.map_cons, List.orderedInsert, List.orderedInsert]
      by_cases hab : r a b
      · rw [if_pos ((hf a b).mpr hab), if_pos hab, List.map_cons, List.map_cons]
      · rw [if_neg (fun hc => hab ((hf a b).mp hc)), if_neg hab, List.map_cons, ih]

theorem insertionSort_map {α : Type} (r : α → α → Prop) [DecidableRel r]
    (f : α → α) (hf : ∀ a b, r (f a) (f b) ↔ r a b) (l : List α) :
    List.insertionSort r (l.map f) = (List.insertionSort r l).map f := by
  induction l with
  | nil => rfl
  | cons a l ih =>
      rw [List.map_cons, List.insertionSort, List.insertionSort, ih]
      exact orderedInsert_map r f hf a _

/-- The rows of `normalize_per_minute_data` as a per-row map. -/
theorem normalizePMD_rows (pm : List String) (df : DF) :
    (normalizePerMinuteData pm df).rows
      = df.rows.map (fun r =>
          Row.drop
            ((pm ++ ["dpm"]).foldl (fun rr c =>
                rr.set c (Cell.num (PVal.pmul60
                  (PVal.pdiv (rr.get c).pv (rr.get "block_length").pv))))
              (renameDamage (r.set "block_length"
                (Cell.num (PVal.psub (r.get "time").pv (r.get "block_start").pv)))))
            "block_length") := by
  simp only [normalizePerMinuteData]
  rw [DF.foldl_setCol_rows]
  simp only [DF.setCol, List.map_map]
  rfl

/-! ### Claim C2 -/

/-- C2 — corrected.  The per-minute conversion in
`normalize_per_minute_data` divides each rate column and the damage column
by the raw block span `time - block_start` with **no** 1-second floor
(first conjunct, a full characterisation of the output cells); when the
span is positive the resulting rates are finite, equal to
`value / span * 60`, and non-negative for non-negative inputs (second
conjunct).  With a zero span the output is non-finite, which is what the
counterexample exhibits. -/
theorem C2_normalize_no_floor (df : DF)
    (hdpm : ∀ r ∈ df.rows, ∀ q ∈ r, q.1 ≠ "dpm") :
    ((normalizePerMinuteData perMinuteColumns df).rows.map
        (fun r => (r.get "gold", r.get "xp", r.get "dpm"))
      = df.rows.map (fun r =>
          (Cell.num (PVal.pmul60 (PVal.pdiv (r.get "gold").pv
             (PVal.psub (r.get "time").pv (r.get "block_start").pv))),
           Cell.num (PVal.pmul60 (PVal.pdiv (r.get "xp").pv
             (PVal.psub (r.get "time").pv (r.get "block_start").pv))),
           Cell.num (PVal.pmul60 (PVal.pdiv (r.get "damage_dealt_to_heroes").pv
             (PVal.psub (r.get "time").pv (r.get "block_start").pv))))))
    ∧ (∀ t b v : ℚ, 0 < t - b → 0 ≤ v →
        PVal.pmul60 (PVal.pdiv (PVal.fin v) (PVal.psub (PVal.fin t) (PVal.fin b)))
          = PVal.fin (v / (t - b) * 60) ∧ 0 ≤ v / (t - b) * 60) := by
  constructor
  · rw [normalizePMD_rows, List.map_map]
    apply List.map_congr_left
    intro r hr
    simp only [Function.comp, perMinuteColumns, List.cons_append, List.nil_append,
      List.foldl_cons, List.foldl_nil]
    have h1 : ∀ q ∈ r.set "block_length"
        (Cell.num (PVal.psub (r.get "time").pv (r.get "block_start").pv)),
        q.1 ≠ "dpm" := by
      intro q hq
      rcases List.mem_cons.mp hq with h | h
      · rw [h]; exact (by decide : ("block_length" : String) ≠ "dpm")
      · exact hdpm r hr q (List.mem_of_mem_filter h)
    have hbl : (renameDamage (r.set "block_length"
        (Cell.num (PVal.psub (r.get "time").pv (r.get "block_start").pv)))).get
          "block_length"
        = Cell.num (PVal.psub (r.get "time").pv (r.get "block_start").pv) := by
      rw [renameDamage_get_ne _ _ (by decide) (by decide), Row.get_set_self]
    have hg : (renameDamage (r.set "block_length"
        (Cell.num (PVal.psub (r.get "time").pv (r.get "block_start").pv)))).get "gold"
        = r.get "gold" := by
      rw [renameDamage_get_ne _ _ (by decide) (by decide),
        Row.get_set_ne _ _ _ _ (by decide)]
    have hx : (renameDamage (r.set "block_length"
        (Cell.num (PVal.psub (r.get "time").pv (r.get "block_start").pv)))).get "xp"
        = r.get "xp" := by
      rw [renameDamage_get_ne _ _ (by decide) (by decide),
        Row.get_set_ne _ _ _ _ (by decide)]
    have hd : (renameDamage (r.set "block_length"
        (Cell.num (PVal.psub (r.get "time").pv (r.get "block_start").pv)))).get "dpm"
        = r.get "damage_dealt_to_heroes" := by
      rw [renameDamage_get_dpm _ h1, Row.get_set_ne _ _ _ _ (by decide)]
    rw [Row.get_drop_ne _ _ _ (by decide), Row.get_drop_ne _ _ _ (by decide),
        Row.get_drop_ne _ _ _ (by decide)]
    rw [Row.get_set_ne _ _ _ _ (by decide), Row.get_set_ne _ _ _ _ (by decide),
        Row.get_set_self]
    rw [Row.get_set_ne _ _ _ _ (by decide), Row.get_set_self]
    rw [Row.get_set_self]
    rw [Row.get_set_ne _ _ _ _ (by decide), Row.get_set_ne _ _ _ _ (by decide)]
    rw [Row.get_set_ne _ _ _ _ (by decide), Row.get_set_ne _ _ _ _ (by decide)]
    rw [Row.get_set_ne _ _ _ _ (by decide), Row.get_set_ne _ _ _ _ (by decide)]
    rw [hbl, hg, hx, hd]
    rfl
  · intro t b v hpos hnn
    have hne : t - b ≠ 0 := ne_of_gt hpos
    constructor
    · simp [PVal.psub, PVal.pdiv, PVal.pmul60, hne]
    · have : 0 ≤ v / (t - b) := div_nonneg hnn (le_of_lt hpos)
      positivity

/-- Input whose single joined row has a zero span (`time = block_start`). -/
def cexNormDF : DF :=
  { cols := ["time", "block_start", "gold", "xp", "damage_dealt_to_heroes"]
    rows := [[("time", Cell.num (PVal.fin 100)),
              ("block_start", Cell.num (PVal.fin 100)),
              ("gold", Cell.num (PVal.fin 50)),
              ("xp", Cell.num (PVal.fin 0)),
              ("damage_dealt_to_heroes", Cell.num (PVal.fin 120))]] }

/-- C2 — counterexample.  On a zero-span row the code produces non-finite
rates (`inf` for gold and dpm, NaN for xp), whereas the claimed
`value / max(span, 1) * 60` formula would give the finite values 3000, 0
and 7200. -/
theorem C2_counterexample :
    ((normalizePerMinuteData perMinuteColumns cexNormDF).rows.map
        (fun r => (r.get "gold", r.get "xp", r.get "dpm")))
      = [(Cell.num PVal.inf, Cell.num PVal.nan, Cell.num PVal.inf)]
    ∧ (50 : ℚ) / max ((100 : ℚ) - 100) 1 * 60 = 3000
    ∧ (120 : ℚ) / max ((100 : ℚ) - 100) 1 * 60 = 7200
    ∧ Cell.num PVal.inf ≠ Cell.num (PVal.fin 3000)
    ∧ Cell.num PVal.nan ≠ Cell.num (PVal.fin 0)
    ∧ Cell.num PVal.inf ≠ Cell.num (PVal.fin 7200) := by decide

/-- A joined row with a positive span, for the C2 witness. -/
def witNormDF : DF :=
  { cols := ["time", "block_start", "gold", "xp", "damage_dealt_to_heroes"]
    rows := [[("time", Cell.num (PVal.fin 90)),
              ("block_start", Cell.num (PVal.fin 30)),
              ("gold", Cell.num (PVal.fin 120)),
              ("xp", Cell.num (PVal.fin 60)),
              ("damage_dealt_to_heroes", Cell.num (PVal.fin 30))]] }

theorem C2_witness :
    ((normalizePerMinuteData perMinuteColumns witNormDF).rows.map
        (fun r => (r.get "gold", r.get "xp", r.get "dpm")))
      = [(Cell.num (PVal.fin 120), Cell.num (PVal.fin 60), Cell.num (PVal.fin 30))]
    ∧ PVal.pmul60 (PVal.pdiv (PVal.fin 30) (PVal.psub (PVal.fin 90) (PVal.fin 30)))
        = PVal.fin (30 / ((90 : ℚ) - 30) * 60)
    ∧ 0 ≤ 30 / ((90 : ℚ) - 30) * 60 := by
  have h := C2_normalize_no_floor witNormDF (by decide)
  refine ⟨?_, (h.2 90 30 30 (by norm_num) (by norm_num)).1,
    (h.2 90 30 30 (by norm_num) (by norm_num)).2⟩
  rw [h.1]
  decide

/-! ### Claim C3 -/

/-- C3 — corrected.  `preprocess_data` keeps every event with
`time >= 0` — an event at `time = 0` is **not** dropped — and assigns
`minute = floor(time / 60)` and `block = floor(minute / w)`, i.e.
`floor(time / 60 / w)`, not `floor((time - 1) / 60 / w)`.  The first
conjunct characterises the surviving rows (the output is a permutation of
the kept rows with the two derived columns attached, in `(time, slot)`
order); the second gives the per-row formulas. -/
theorem C3_preprocess_blocks (w : ℤ) (df : DF) (hw : 0 < w) :
    List.Perm (preprocessData w df).rows
      ((df.rows.filter (fun r => pvGE0 (r.get "time").pv)).map
        (fun r => (r.set "minute" (Cell.num ((r.get "time").pv.pfdiv 60))).set "block"
           (Cell.num (((r.get "time").pv.pfdiv 60).pfdiv (w : ℚ)))))
    ∧ ∀ r ∈ (preprocessData w df).rows, ∀ t : ℚ, (r.get "time").pv = PVal.fin t →
        0 ≤ t ∧ r.get "minute" = Cell.num (PVal.fin ((⌊t / 60⌋ : ℤ) : ℚ))
          ∧ r.get "block" = Cell.num (PVal.fin ((⌊((⌊t / 60⌋ : ℤ) : ℚ) / (w : ℚ)⌋ : ℤ) : ℚ)) := by
  have hrows : (preprocessData w df).rows
      = List.insertionSort rowLE
        ((df.rows.filter (fun r => pvGE0 (r.get "time").pv)).map
          (fun r => (r.set "minute" (Cell.num ((r.get "time").pv.pfdiv 60))).set "block"
             (Cell.num (((r.get "time").pv.pfdiv 60).pfdiv (w : ℚ))))) := by
    simp only [preprocessData, DF.setCol, List.map_map]
    congr 1
  constructor
  · rw [hrows]
    exact List.perm_insertionSort _ _
  · intro r hr t ht
    rw [hrows] at hr
    have hr2 := (List.perm_insertionSort rowLE _).mem_iff.mp hr
    rcases List.mem_map.mp hr2 with ⟨r0, hr0, hminute⟩
    have hkeep := List.of_mem_filter hr0
    have htime : r.get "time" = r0.get "time" := by
      rw [← hminute, Row.get_set_ne _ _ _ _ (by decide),
        Row.get_set_ne _ _ _ _ (by decide)]
    have ht0 : (r0.get "time").pv = PVal.fin t := by rw [← htime]; exact ht
    refine ⟨?_, ?_, ?_⟩
    · rw [ht0] at hkeep
      simpa [pvGE0] using hkeep
    · rw [← hminute, Row.get_set_ne _ _ _ _ (by decide), Row.get_set_self, ht0]
      rfl
    · rw [← hminute, Row.get_set_self, ht0]
      rfl

/-- Events at `time = 0` and `time = 60`, block width 1 minute. -/
def cexPrepDF : DF :=
  { cols := ["type", "time", "slot"]
    rows := [[("type", Cell.str "interval"), ("time", Cell.num (PVal.fin 0)),
              ("slot", Cell.num (PVal.fin 0))],
             [("type", Cell.str "interval"), ("time", Cell.num (PVal.fin 60)),
              ("slot", Cell.num (PVal.fin 0))]] }

/-- C3 — counterexample.  The event at `time = 0` survives preprocessing
although the claim says `time <= 0` events are dropped, and the event at
`time = 60` with block width 1 gets block index 1 while the claimed
formula `floor((time - 1) / 60 / w)` gives `floor(59/60) = 0`. -/
theorem C3_counterexample :
    ((preprocessData 1 cexPrepDF).rows.map (fun r => (r.get "time", r.get "block")))
      = [(Cell.num (PVal.fin 0), Cell.num (PVal.fin 0)),
         (Cell.num (PVal.fin 60), Cell.num (PVal.fin 1))]
    ∧ (⌊(((60 : ℚ) - 1) / 60)⌋ : ℤ) = 0
    ∧ Cell.num (PVal.fin 1) ≠ Cell.num (PVal.fin ((0 : ℤ) : ℚ)) := by decide

theorem C3_witness :
    0 < (1 : ℤ)
    ∧ List.Perm (preprocessData 1 cexPrepDF).rows
      ((cexPrepDF.rows.filter (fun r => pvGE0 (r.get "time").pv)).map
        (fun r => (r.set "minute" (Cell.num ((r.get "time").pv.pfdiv 60))).set "block"
           (Cell.num (((r.get "time").pv.pfdiv 60).pfdiv ((1 : ℤ) : ℚ))))) := by
  refine ⟨by decide, ?_⟩
  exact (C3_preprocess_blocks 1 cexPrepDF (by decide)).1

/-! ### Claim C6 -/

/-- C6 — corrected.  The benchmark comparison totals are
`rate_per_min * (match_length / 60)` with `int(...)` truncation toward
zero for gold and xp, but Python `round(...)` (half-to-even) for kills,
last hits **and damage** — damage is rounded, not truncated as claimed. -/
theorem C6_benchmark_rounding (bt : ℤ → ℤ → Option Benchmark) (pct hid : ℤ)
    (b : Benchmark) (len : ℚ) (h : bt hid pct = some b) :
    postprocessBenchmarks bt pct hid (PVal.fin len) = .ok
      [("Total gold", pyTrunc (b.gold_per_min * (len / 60))),
       ("Total xp", pyTrunc (b.xp_per_min * (len / 60))),
       ("Total kills", pyRound (b.kills_per_min * (len / 60))),
       ("Total last hits", pyRound (b.last_hits_per_min * (len / 60))),
       ("Total damage", pyRound (b.hero_damage_per_min * (len / 60)))] := by
  simp [postprocessBenchmarks, getBenchmark, h, PVal.pdiv, pmulQ, pvToIntE,
    pvRoundE, Except.bind, (by norm_num : (60 : ℚ) ≠ 0)]

/-- Benchmark with `hero_damage_per_min = 10.6`. -/
def cexBench : Benchmark := ⟨0, 0, 0, 0, 53/5, 0, 0⟩

def cexBenchTable : ℤ → ℤ → Option Benchmark := fun _ _ => some cexBench

/-- C6 — counterexample.  For damage rate 10.6 over a 60-second match the
code emits `round(10.6) = 11` for `Total damage`, while the claimed
truncation toward zero gives `int(10.6) = 10`. -/
theorem C6_counterexample :
    postprocessBenchmarks cexBenchTable 50 1 (PVal.fin 60) = .ok
      [("Total gold", 0), ("Total xp", 0), ("Total kills", 0),
       ("Total last hits", 0), ("Total damage", 11)]
    ∧ pyTrunc ((53/5 : ℚ) * ((60 : ℚ) / 60)) = 10
    ∧ (11 : ℤ) ≠ 10 := by decide

theorem C6_witness :
    cexBenchTable 1 50 = some cexBench
    ∧ postprocessBenchmarks cexBenchTable 50 1 (PVal.fin 120) = .ok
      [("Total gold", pyTrunc (cexBench.gold_per_min * ((120 : ℚ) / 60))),
       ("Total xp", pyTrunc (cexBench.xp_per_min * ((120 : ℚ) / 60))),
       ("Total kills", pyRound (cexBench.kills_per_min * ((120 : ℚ) / 60))),
       ("Total last hits", pyRound (cexBench.last_hits_per_min * ((120 : ℚ) / 60))),
       ("Total damage", pyRound (cexBench.hero_damage_per_min * ((120 : ℚ) / 60)))] :=
  ⟨rfl, C6_benchmark_rounding cexBenchTable 50 1 cexBench 120 rfl⟩

/-! ### Claim C8 -/

/-- C8 — confirmed.  When any of the three required event types is absent
from the stream, `process_replay_data` raises `CorruptedDataError` naming
the missing types.  The error is returned no matter what the rest of the
frame contains — in particular before winner extraction could fail — which
the witness exercises on a stream whose building sub-stream is empty (and
would otherwise die with `IndexError` inside `extract_winning_team`). -/
theorem C8_required_types (w : ℤ) (maxPlayers : ℕ) (perMin : List String)
    (pct : ℤ) (hi : ℤ → String × String) (bt : ℤ → ℤ → Option Benchmark)
    (df : DF) (typeCol : List Cell)
    (hcol : df.colE "type" = .ok typeCol)
    (hmiss : missingTypesOf typeCol ≠ []) :
    processReplayData w maxPlayers perMin pct hi bt df
      = .error (.corrupted (missingTypesOf typeCol)) := by
  simp [processReplayData, hcol, hmiss, Except.bind]

/-- A stream with interval and damage events but no building-kill event. -/
def cexTypesDF : DF :=
  { cols := ["type", "time", "slot", "attackername", "targetname",
             "attackerhero", "targethero", "value"]
    rows := [[("type", Cell.str "interval"), ("time", Cell.num (PVal.fin 1)),
              ("slot", Cell.num (PVal.fin 0))],
             [("type", Cell.str "DOTA_COMBATLOG_DAMAGE"),
              ("time", Cell.num (PVal.fin 1)),
              ("attackername", Cell.str "npc_dota_hero_axe"),
              ("targetname", Cell.str "npc_dota_hero_bane"),
              ("attackerhero", Cell.num (PVal.fin 1)),
              ("targethero", Cell.num (PVal.fin 1)),
              ("value", Cell.num (PVal.fin 50))]] }

/-! ### Claim C9 -/

theorem addDerivedCols_get_ne (w : ℤ) (r : Row) (c : String)
    (h1 : c ≠ "block") (h2 : c ≠ "minute") :
    (addDerivedCols w r).get c = r.get c := by
  rw [addDerivedCols, Row.get_set_ne _ _ _ _ h1, Row.get_set_ne _ _ _ _ h2]

theorem rowLE_addDerivedCols (w : ℤ) (a b : Row) :
    rowLE (addDerivedCols w a) (addDerivedCols w b) ↔ rowLE a b := by
  have hk : ∀ r : Row, rowKey (addDerivedCols w r) = rowKey r := by
    intro r
    rw [rowKey, rowKey, addDerivedCols_get_ne _ _ _ (by decide) (by decide),
      addDerivedCols_get_ne _ _ _ (by decide) (by decide)]
  rw [rowLE, rowLE, hk, hk]

/-- C9 — corrected.  The winner is **not** read off the last
building-destruction event in original stream order: `preprocess_data`
sorts all events by `(time, slot)` first, so the code's winner equals
`winnerFromBuildings` — the target of the last building-kill event *after
discarding `time < 0` events and sorting by `(time, slot)`* (radiant iff
that target is `npc_dota_badguys_fort`).  Since the right-hand side
depends only on the building sub-stream, the winner is indeed invariant
under any reordering or change of the other events, but the claim's
"original event order" reading is refuted by the counterexample. -/
theorem C9_winner_sorted (w : ℤ) (df : DF) :
    extractWinningTeam (preprocessData w df)
      = winnerFromBuildings (df.rows.filter
          (fun r => r.get "type" == Cell.str "DOTA_COMBATLOG_TEAM_BUILDING_KILL")) := by
  unfold extractWinningTeam winnerFromBuildings getDfByType
  rw [preprocessData_rows]
  simp only
  rw [insertionSort_filter]
  rw [List.filter_map]
  rw [List.filter_congr (fun r _ => by
    show ((addDerivedCols w r).get "type" == Cell.str "DOTA_COMBATLOG_TEAM_BUILDING_KILL")
        = (r.get "type" == Cell.str "DOTA_COMBATLOG_TEAM_BUILDING_KILL")
    rw [addDerivedCols_get_ne _ _ _ (by decide) (by decide)])]
  rw [List.filter_comm]
  rw [insertionSort_map rowLE (addDerivedCols w) (rowLE_addDerivedCols w)]
  rw [List.getLast?_map]
  cases h : (List.insertionSort rowLE
      ((List.filter (fun r => r.get "type" == Cell.str "DOTA_COMBATLOG_TEAM_BUILDING_KILL")
        df.rows).filter (fun r => pvGE0 (r.get "time").pv))).getLast? with
  | none => rfl
  | some r0 =>
      change (if (addDerivedCols w r0).get "targetname" = Cell.str "npc_dota_badguys_fort"
          then (Except.ok Team.radiant : Except PyError Team) else Except.ok Team.dire)
        = (if r0.get "targetname" = Cell.str "npc_dota_badguys_fort"
          then Except.ok Team.radiant else Except.ok Team.dire)
      rw [addDerivedCols_get_ne w r0 "targetname" (by decide) (by decide)]

/-- Two building-kill events whose stream order disagrees with their time
order: the later-listed event happens earlier (time 50). -/
def cexWinnerDF : DF :=
  { cols := ["type", "time", "slot", "targetname"]
    rows := [[("type", Cell.str "DOTA_COMBATLOG_TEAM_BUILDING_KILL"),
              ("time", Cell.num (PVal.fin 100)),
              ("targetname", Cell.str "npc_dota_badguys_fort")],
             [("type", Cell.str "DOTA_COMBATLOG_TEAM_BUILDING_KILL"),
              ("time", Cell.num (PVal.fin 50)),
              ("targetname", Cell.str "npc_dota_goodguys_fort")]] }

/-- C9 — counterexample.  In original event order the last
building-destruction event targets the goodguys fort, so the claimed rule
("the last destruction event's target; radiant iff it is the bad-guys
fort") yields dire; the code sorts by time first and returns radiant. -/
theorem C9_counterexample :
    extractWinningTeam (preprocessData 10 cexWinnerDF) = .ok Team.radiant
    ∧ (cexWinnerDF.rows.getLast?).map (fun r => r.get "targetname")
        = some (Cell.str "npc_dota_goodguys_fort")
    ∧ Cell.str "npc_dota_goodguys_fort" ≠ Cell.str "npc_dota_badguys_fort"
    ∧ Team.radiant ≠ Team.dire := by decide

theorem C8_witness :
    cexTypesDF.colE "type" = .ok (cexTypesDF.rows.map (fun r => r.get "type"))
    ∧ missingTypesOf (cexTypesDF.rows.map (fun r => r.get "type")) ≠ []
    ∧ processReplayData 10 10 perMinuteColumns 50 (fun _ => ("", "")) (fun _ _ => none)
        cexTypesDF
      = .error (.corrupted ["DOTA_COMBATLOG_TEAM_BUILDING_KILL"]) := by
  refine ⟨by decide, by decide, ?_⟩
  have h := C8_required_types 10 10 perMinuteColumns 50 (fun _ => ("", ""))
    (fun _ _ => none) cexTypesDF (cexTypesDF.rows.map (fun r => r.get "type"))
    (by decide) (by decide)
  exact h.trans (by decide)

/-! ### mapM over Except: structural lemmas -/

theorem mapM_ok_forall2 {α β : Type} (f : α → Except PyError β) :
    ∀ (l : List α) (out : List β), l.mapM f = .ok out →
      List.Forall₂ (fun a b => f a = .ok b) l out := by
  intro l
  induction l with
  | nil =>
      intro out h
      rw [← List.mapM'_eq_mapM] at h
      cases h
      exact List.Forall₂.nil
  | cons a l ih =>
      intro out h
      rw [← List.mapM'_eq_mapM] at h
      simp only [List.mapM'] at h
      cases hfa : f a with
      | error e => rw [hfa] at h; simp at h
      | ok b =>
          rw [hfa] at h
          simp only [ok_bind] at h
          cases hfl : l.mapM' f with
          | error e => rw [hfl] at h; simp at h
          | ok bs =>
              rw [hfl] at h
              simp only [ok_bind] at h
              cases h
              exact List.Forall₂.cons hfa (ih bs (by rw [← List.mapM'_eq_mapM]; exact hfl))

/-- If every element of the prefix before some element maps to `ok` and
that element maps to `error e`, the whole `mapM` is `error e`. -/
theorem mapM_error_first {α β : Type} (f : α → Except PyError β) (e : PyError) :
    ∀ (l₁ : List α) (a : α) (l₂ : List α),
      (∀ x ∈ l₁, ∃ b, f x = .ok b) → f a = .error e →
      (l₁ ++ a :: l₂).mapM f = .error e := by
  intro l₁
  induction l₁ with
  | nil =>
      intro a l₂ _ ha
      rw [← List.mapM'_eq_mapM]
      simp only [List.nil_append, List.mapM', ha, error_bind]
  | cons x l₁ ih =>
      intro a l₂ hok ha
      rw [← List.mapM'_eq_mapM]
      rcases hok x (by simp) with ⟨b, hb⟩
      simp only [List.cons_append, List.mapM', hb, ok_bind]
      rw [List.mapM'_eq_mapM]
      simp only [List.append_eq]
      rw [ih a l₂ (fun y hy => hok y (by simp [hy])) ha]
      rfl

/-- If every element maps to `ok` via a given choice function, `mapM`
returns the mapped list. -/
theorem mapM_ok_of_forall {α β : Type} (f : α → Except PyError β) (g : α → β) :
    ∀ l : List α, (∀ x ∈ l, f x = .ok (g x)) → l.mapM f = .ok (l.map g) := by
  intro l
  induction l with
  | nil => intro _; rfl
  | cons x l ih =>
      intro h
      rw [← List.mapM'_eq_mapM]
      simp only [List.mapM', h x (by simp), ok_bind]
      rw [List.mapM'_eq_mapM, ih (fun y hy => h y (by simp [hy]))]
      rfl

theorem forall2_mem_right {α β : Type} {R : α → β → Prop} :
    ∀ {l₁ : List α} {l₂ : List β}, List.Forall₂ R l₁ l₂ →
      ∀ b ∈ l₂, ∃ a ∈ l₁, R a b := by
  intro l₁ l₂ h
  induction h with
  | nil => intro b hb; simp at hb
  | cons hR _ ih =>
      intro b hb
      rcases List.mem_cons.mp hb with hb | hb
      · exact ⟨_, by simp, hb ▸ hR⟩
      · rcases ih b hb with ⟨a, ha, hab⟩
        exact ⟨a, by simp [ha], hab⟩

theorem exists_first_split {α : Type} (p : α → Bool) :
    ∀ l : List α, (∃ a ∈ l, p a = true) →
      ∃ l₁ a l₂, l = l₁ ++ a :: l₂ ∧ p a = true ∧ ∀ x ∈ l₁, p x = false := by
  intro l
  induction l with
  | nil => intro h; simp at h
  | cons x l ih =>
      intro h
      by_cases hx : p x = true
      · exact ⟨[], x, l, by simp, hx, by simp⟩
      · have : ∃ a ∈ l, p a = true := by
          rcases h with ⟨a, ha, hpa⟩
          rcases List.mem_cons.mp ha with rfl | ha
          · exact absurd hpa hx
          · exact ⟨a, ha, hpa⟩
        rcases ih this with ⟨l₁, a, l₂, heq, hpa, hpre⟩
        refine ⟨x :: l₁, a, l₂, by simp [heq], hpa, ?_⟩
        intro y hy
        rcases List.mem_cons.mp hy with rfl | hy
        · simpa using hx
        · exact hpre y hy

/-- Classifier used by counterexamples: is the outcome a
`CorruptedDataError`? -/
def isCorruptedError {α : Type} : Except PyError α → Bool
  | .error (.corrupted _) => true
  | _ => false

/-- Shared hero table for concrete pipeline runs. -/
def heroInfoW : ℤ → String × String :=
  fun i => ("npc_dota_hero_h" ++ toString i, "H" ++ toString i)

/-- Shared benchmark table for concrete pipeline runs. -/
def benchTableW : ℤ → ℤ → Option Benchmark := fun _ _ => some ⟨1, 2, 0, 0, 0, 0, 0⟩

/-! ### Claim C5 -/

/-- The totals object `compute_final_stats` builds for one slot from the
slot's row at the overall last second: every cumulative counter is read
directly from the row. -/
def finalTotalsRow (hi : ℤ → String × String) (ddf : DF) (row : Row) (q : ℚ) :
    List (String × PVal) :=
  [("Total gold", (row.get "gold").pv),
   ("Total last hits", (row.get "lh").pv),
   ("Total denies", (row.get "denies").pv),
   ("Total xp", (row.get "xp").pv),
   ("Total kills", (row.get "kills").pv),
   ("Total deaths", (row.get "deaths").pv),
   ("Total assists", (row.get "assists").pv),
   ("Total KDA", PVal.pround1 (PVal.pdiv
      (PVal.padd (row.get "kills").pv (row.get "assists").pv)
      (PVal.pmaxFloor1 (row.get "deaths").pv))),
   ("Total damage", PVal.aggSum
      ((ddf.rows.filter (fun rr =>
          rr.get "attackername" == Cell.str (hi (pyTrunc q)).1)).map
        (fun rr => (rr.get "damage_dealt_to_heroes").pv)))]

theorem finalStatsSlot_ok_of (hi : ℤ → String × String) (idf ddf : DF)
    (sn : ℕ) (r : Row) (q : ℚ)
    (hslot : "slot" ∈ idf.cols) (hhid : "hero_id" ∈ idf.cols)
    (hk : "kills" ∈ idf.cols) (ha : "assists" ∈ idf.cols)
    (hd : "deaths" ∈ idf.cols) (hg : "gold" ∈ idf.cols)
    (hlh : "lh" ∈ idf.cols) (hden : "denies" ∈ idf.cols)
    (hxp : "xp" ∈ idf.cols)
    (hatk : "attackername" ∈ ddf.cols)
    (hdmg : "damage_dealt_to_heroes" ∈ ddf.cols)
    (hterm : terminalRow idf (sn : ℤ) = some r)
    (hq : (r.get "hero_id").pv = PVal.fin q) :
    finalStatsSlot hi idf ddf sn = .ok ((sn : ℤ), finalTotalsRow hi ddf r q) := by
  simp [finalStatsSlot, DF.colE, getE, hslot, hhid, hk, ha, hd, hg, hlh, hden,
    hxp, hatk, hdmg, hterm, hq, pvToIntE, finalTotalsRow]

theorem finalStatsSlot_none (hi : ℤ → String × String) (idf ddf : DF) (sn : ℕ)
    (hslot : "slot" ∈ idf.cols)
    (hterm : terminalRow idf (sn : ℤ) = none) :
    finalStatsSlot hi idf ddf sn = .error .indexError := by
  simp [finalStatsSlot, DF.colE, hslot, hterm]

theorem finalStatsSlot_ok_spec (hi : ℤ → String × String) (idf ddf : DF)
    (sn : ℕ) (b : ℤ × List (String × PVal))
    (h : finalStatsSlot hi idf ddf sn = .ok b) :
    ∃ r, terminalRow idf (sn : ℤ) = some r ∧ ∃ q : ℚ,
      (r.get "hero_id").pv = PVal.fin q ∧ b = ((sn : ℤ), finalTotalsRow hi ddf r q) := by
  by_cases hslot : "slot" ∈ idf.cols
  case neg => simp [finalStatsSlot, DF.colE, hslot] at h
  cases hterm : terminalRow idf (sn : ℤ) with
  | none => simp [finalStatsSlot, DF.colE, hslot, hterm] at h
  | some r =>
      refine ⟨r, rfl, ?_⟩
      by_cases hhid : "hero_id" ∈ idf.cols
      case neg => simp [finalStatsSlot, DF.colE, getE, hslot, hterm, hhid] at h
      cases hq : (r.get "hero_id").pv with
      | fin q =>
          refine ⟨q, rfl, ?_⟩
          by_cases hatk : "attackername" ∈ ddf.cols
          case neg =>
            simp [finalStatsSlot, DF.colE, getE, hslot, hterm, hhid, hq,
              pvToIntE, hatk] at h
          by_cases hk : "kills" ∈ idf.cols
          case neg =>
            simp [finalStatsSlot, DF.colE, getE, hslot, hterm, hhid, hq,
              pvToIntE, hatk, hk] at h
          by_cases ha : "assists" ∈ idf.cols
          case neg =>
            simp [finalStatsSlot, DF.colE, getE, hslot, hterm, hhid, hq,
              pvToIntE, hatk, hk, ha] at h
          by_cases hd : "deaths" ∈ idf.cols
          case neg =>
            simp [finalStatsSlot, DF.colE, getE, hslot, hterm, hhid, hq,
              pvToIntE, hatk, hk, ha, hd] at h
          by_cases hg : "gold" ∈ idf.cols
          case neg =>
            simp [finalStatsSlot, DF.colE, getE, hslot, hterm, hhid, hq,
              pvToIntE, hatk, hk, ha, hd, hg] at h
          by_cases hlh : "lh" ∈ idf.cols
          case neg =>
            simp [finalStatsSlot, DF.colE, getE, hslot, hterm, hhid, hq,
              pvToIntE, hatk, hk, ha, hd, hg, hlh] at h
          by_cases hden : "denies" ∈ idf.cols
          case neg =>
            simp [finalStatsSlot, DF.colE, getE, hslot, hterm, hhid, hq,
              pvToIntE, hatk, hk, ha, hd, hg, hlh, hden] at h
          by_cases hxp : "xp" ∈ idf.cols
          case neg =>
            simp [finalStatsSlot, DF.colE, getE, hslot, hterm, hhid, hq,
              pvToIntE, hatk, hk, ha, hd, hg, hlh, hden, hxp] at h
          by_cases hdmg : "damage_dealt_to_heroes" ∈ ddf.cols
          case neg =>
            simp [finalStatsSlot, DF.colE, getE, hslot, hterm, hhid, hq,
              pvToIntE, hatk, hk, ha, hd, hg, hlh, hden, hxp, hdmg] at h
          have := finalStatsSlot_ok_of hi idf ddf sn r q hslot hhid hk ha hd
            hg hlh hden hxp hatk hdmg hterm hq
          rw [this] at h
          exact (Except.ok.injEq _ _ ▸ h).symm
      | nan =>
          simp [finalStatsSlot, DF.colE, getE, hslot, hterm, hhid, hq, pvToIntE] at h
      | inf =>
          simp [finalStatsSlot, DF.colE, getE, hslot, hterm, hhid, hq, pvToIntE] at h
      | ninf =>
          simp [finalStatsSlot, DF.colE, getE, hslot, hterm, hhid, hq, pvToIntE] at h

/-- C5 — corrected.  First conjunct: when any slot below `max_players` has
no snapshot at the overall last recorded second, `compute_final_stats`
fails with **`IndexError`** (pandas `.iloc[-1]` on an empty selection),
not `CorruptedDataError`.  Second conjunct: on success, every slot's
totals are read directly from that slot's row at the overall last second
(`finalTotalsRow`): gold, last hits, denies, xp, kills, deaths and assists
are the row's cumulative counters verbatim. -/
theorem C5_final_stats :
    (∀ (maxP : ℕ) (hi : ℤ → String × String) (idf ddf : DF),
      "time" ∈ idf.cols → "slot" ∈ idf.cols → "hero_id" ∈ idf.cols →
      "kills" ∈ idf.cols → "assists" ∈ idf.cols → "deaths" ∈ idf.cols →
      "gold" ∈ idf.cols → "lh" ∈ idf.cols → "denies" ∈ idf.cols →
      "xp" ∈ idf.cols → "attackername" ∈ ddf.cols →
      "damage_dealt_to_heroes" ∈ ddf.cols →
      (∀ sn ∈ List.range maxP, ∀ r : Row, terminalRow idf (sn : ℤ) = some r →
        ∃ q : ℚ, (r.get "hero_id").pv = PVal.fin q) →
      (∃ sn : ℕ, sn < maxP ∧ terminalRow idf (sn : ℤ) = none) →
      computeFinalStats maxP hi idf ddf = .error .indexError)
    ∧ (∀ (maxP : ℕ) (hi : ℤ → String × String) (idf ddf : DF)
        (out : List (ℤ × List (String × PVal))),
      computeFinalStats maxP hi idf ddf = .ok out →
      ∀ st ∈ out, ∃ sn : ℕ, sn < maxP ∧ st.1 = (sn : ℤ) ∧
        ∃ r, terminalRow idf (sn : ℤ) = some r ∧ ∃ q : ℚ,
          (r.get "hero_id").pv = PVal.fin q ∧ st.2 = finalTotalsRow hi ddf r q) := by
  constructor
  · intro maxP hi idf ddf htime hslot hhid hk ha hd hg hlh hden hxp hatk hdmg
      hfin hmiss
    rcases hmiss with ⟨sn0, hlt, hnone⟩
    have hmem : ∃ a ∈ List.range maxP,
        (terminalRow idf (a : ℤ)).isNone = true := by
      exact ⟨sn0, List.mem_range.mpr hlt, by simp [hnone]⟩
    rcases exists_first_split _ _ hmem with ⟨l₁, a, l₂, hsplit, hpa, hpre⟩
    have hmapM : (List.range maxP).mapM (finalStatsSlot hi idf ddf)
        = .error .indexError := by
      rw [hsplit]
      apply mapM_error_first
      · intro x hx
        have hxmem : x ∈ List.range maxP := by
          rw [hsplit]; exact List.mem_append_left _ hx
        have hsome : ∃ r, terminalRow idf (x : ℤ) = some r := by
          have := hpre x hx
          cases hx2 : terminalRow idf (x : ℤ) with
          | none => rw [hx2] at this; simp at this
          | some r => exact ⟨r, rfl⟩
        rcases hsome with ⟨r, hr⟩
        rcases hfin x hxmem r hr with ⟨q, hq⟩
        exact ⟨_, finalStatsSlot_ok_of hi idf ddf x r q hslot hhid hk ha hd
          hg hlh hden hxp hatk hdmg hr hq⟩
      · have : terminalRow idf (a : ℤ) = none := by
          cases hx2 : terminalRow idf (a : ℤ) with
          | none => rfl
          | some r => rw [hx2] at hpa; simp at hpa
        exact finalStatsSlot_none hi idf ddf a hslot this
    simp only [computeFinalStats, DF.colE, if_pos htime, ok_bind]
    exact hmapM
  · intro maxP hi idf ddf out h st hst
    by_cases htime : "time" ∈ idf.cols
    case neg => simp [computeFinalStats, DF.colE, htime] at h
    have hmapM : (List.range maxP).mapM (finalStatsSlot hi idf ddf) = .ok out := by
      simpa [computeFinalStats, DF.colE, htime] using h
    have h2 := mapM_ok_forall2 _ _ _ hmapM
    rcases forall2_mem_right h2 st hst with ⟨sn, hsn, hok⟩
    rcases finalStatsSlot_ok_spec hi idf ddf sn st hok with ⟨r, hterm, q, hq, hb⟩
    exact ⟨sn, List.mem_range.mp hsn, by rw [hb], r, hterm, q, hq, by rw [hb]⟩

/-- Interval frame where slot 0 has a snapshot at the final second
(time 5) but slot 1's latest snapshot is at time 3 only. -/
def cexSlotIdf : DF :=
  { cols := ["time", "slot", "hero_id", "kills", "deaths", "assists", "gold",
             "lh", "denies", "xp"]
    rows := [[("time", Cell.num (PVal.fin 5)), ("slot", Cell.num (PVal.fin 0)),
              ("hero_id", Cell.num (PVal.fin 0)), ("kills", Cell.num (PVal.fin 0)),
              ("deaths", Cell.num (PVal.fin 0)), ("assists", Cell.num (PVal.fin 0)),
              ("gold", Cell.num (PVal.fin 1)), ("lh", Cell.num (PVal.fin 0)),
              ("denies", Cell.num (PVal.fin 0)), ("xp", Cell.num (PVal.fin 1))],
             [("time", Cell.num (PVal.fin 3)), ("slot", Cell.num (PVal.fin 1)),
              ("hero_id", Cell.num (PVal.fin 1)), ("kills", Cell.num (PVal.fin 0)),
              ("deaths", Cell.num (PVal.fin 0)), ("assists", Cell.num (PVal.fin 0)),
              ("gold", Cell.num (PVal.fin 1)), ("lh", Cell.num (PVal.fin 0)),
              ("denies", Cell.num (PVal.fin 0)), ("xp", Cell.num (PVal.fin 1))]] }

/-- Empty damage aggregate frame. -/
def cexSlotDdf : DF :=
  { cols := ["attackername", "damage_dealt_to_heroes"], rows := [] }

/-- C5 — counterexample.  Slot 1 *does* have a latest interval snapshot
(at time 3), but because it is not at the overall last second (time 5),
`compute_final_stats` raises `IndexError` — not `CorruptedDataError`, and
not the claimed per-slot-last-snapshot totals. -/
theorem C5_counterexample :
    computeFinalStats 10 heroInfoW cexSlotIdf cexSlotDdf = .error .indexError
    ∧ isCorruptedError (computeFinalStats 10 heroInfoW cexSlotIdf cexSlotDdf) = false
    ∧ (cexSlotIdf.rows.filter
        (fun r => r.get "slot" == Cell.num (PVal.fin 1))).length = 1 :=
  ⟨rfl, rfl, rfl⟩

/-- Interval frame with no rows at all (every slot lacks a terminal
snapshot). -/
def emptyIdf : DF :=
  { cols := ["time", "slot", "hero_id", "kills", "deaths", "assists", "gold",
             "lh", "denies", "xp"]
    rows := [] }

/-- One-slot interval frame for the success half of the C5 witness. -/
def witFinalIdf : DF :=
  { cols := ["time", "slot", "hero_id", "kills", "deaths", "assists", "gold",
             "lh", "denies", "xp"]
    rows := [[("time", Cell.num (PVal.fin 1)), ("slot", Cell.num (PVal.fin 0)),
              ("hero_id", Cell.num (PVal.fin 0)), ("kills", Cell.num (PVal.fin 2)),
              ("deaths", Cell.num (PVal.fin 0)), ("assists", Cell.num (PVal.fin 3)),
              ("gold", Cell.num (PVal.fin 100)), ("lh", Cell.num (PVal.fin 10)),
              ("denies", Cell.num (PVal.fin 1)), ("xp", Cell.num (PVal.fin 200))]] }

def witFinalFields : List (String × PVal) :=
  [("Total gold", PVal.fin 100), ("Total last hits", PVal.fin 10),
   ("Total denies", PVal.fin 1), ("Total xp", PVal.fin 200),
   ("Total kills", PVal.fin 2), ("Total deaths", PVal.fin 0),
   ("Total assists", PVal.fin 3), ("Total KDA", PVal.fin 5),
   ("Total damage", PVal.fin 0)]

theorem C5_witness :
    computeFinalStats 10 heroInfoW emptyIdf cexSlotDdf = .error .indexError
    ∧ (∃ sn : ℕ, sn < 1 ∧ (((0 : ℤ), witFinalFields) : ℤ × List (String × PVal)).1 = (sn : ℤ)
        ∧ ∃ r, terminalRow witFinalIdf (sn : ℤ) = some r ∧ ∃ q : ℚ,
          (r.get "hero_id").pv = PVal.fin q
          ∧ ((0 : ℤ), witFinalFields).2 = finalTotalsRow heroInfoW cexSlotDdf r q) := by
  constructor
  · refine C5_final_stats.1 10 heroInfoW emptyIdf cexSlotDdf (by decide) (by decide)
      (by decide) (by decide) (by decide) (by decide) (by decide) (by decide)
      (by decide) (by decide) (by decide) (by decide) ?_ ⟨0, by norm_num, rfl⟩
    intro sn _ r hterm
    simp [terminalRow, finalRowsOf, emptyIdf] at hterm
  · have hok : computeFinalStats 1 heroInfoW witFinalIdf cexSlotDdf
        = (Except.ok [((0 : ℤ), witFinalFields)]
            : Except PyError (List (ℤ × List (String × PVal)))) := rfl
    exact C5_final_stats.2 1 heroInfoW witFinalIdf cexSlotDdf _ hok
      ((0 : ℤ), witFinalFields) (by simp)

/-! ### Claim C10 -/

theorem Row.get_append_right (l₁ l₂ : Row) (c : String)
    (h : ∀ q ∈ l₁, q.1 ≠ c) :
    Row.get (l₁ ++ l₂) c = Row.get l₂ c := by
  induction l₁ with
  | nil => rfl
  | cons p l₁ ih =>
      unfold Row.get at ih ⊢
      rw [List.cons_append,
        List.find?_cons_of_neg _ (by simpa using h p (by simp))]
      exact ih fun q hq => h q (by simp [hq])

/-- C10 — confirmed.  First conjunct: in every `(block, slot)` group the
second aggregation pass computes `kda = (max kills + max assists) /
max(max deaths, 1)`; the denominator is at least 1, so the division is by
a positive number and the result is a finite value — it never raises,
even when deaths is 0 throughout the group.  Second conjunct: on success,
`compute_final_stats` reports `Total KDA = round((kills + assists) /
max(deaths, 1), 1)` computed from the terminal snapshot's counters, again
always finite. -/
theorem C10_kda :
    (∀ (perMin : List String) (g : List Row) (k d a : ℚ),
      "kda" ∉ perMin →
      PVal.aggMax (g.map (fun r => (r.get "kills").pv)) = PVal.fin k →
      PVal.aggMax (g.map (fun r => (r.get "deaths").pv)) = PVal.fin d →
      PVal.aggMax (g.map (fun r => (r.get "assists").pv)) = PVal.fin a →
      (secondAggRow perMin g).get "kda" = Cell.num (PVal.fin ((k + a) / max d 1))
        ∧ 0 < max d 1)
    ∧ (∀ (maxP : ℕ) (hi : ℤ → String × String) (idf ddf : DF)
        (out : List (ℤ × List (String × PVal))),
      computeFinalStats maxP hi idf ddf = .ok out →
      ∀ st ∈ out, ∀ r, terminalRow idf st.1 = some r →
      ∀ k d a : ℚ,
      (r.get "kills").pv = PVal.fin k →
      (r.get "deaths").pv = PVal.fin d →
      (r.get "assists").pv = PVal.fin a →
      st.2.find? (fun p => p.1 == "Total KDA")
        = some ("Total KDA", PVal.fin (pyRound1 ((k + a) / max d 1)))) := by
  have hden : ∀ d : ℚ, max d 1 ≠ 0 := fun d =>
    ne_of_gt (lt_of_lt_of_le zero_lt_one (le_max_right d 1))
  constructor
  · intro perMin g k d a hkda hk hd ha
    refine ⟨?_, lt_of_lt_of_le zero_lt_one (le_max_right d 1)⟩
    unfold secondAggRow
    rw [Row.get_append_right _ _ _ (by
      intro q hq
      rcases List.mem_map.mp hq with ⟨c, hc, rfl⟩
      simp only
      intro hcontra
      exact hkda (hcontra ▸ hc))]
    rw [hk, hd, ha]
    simp [Row.get, List.find?, PVal.padd, PVal.pmaxFloor1, PVal.pdiv, hden d]
  · intro maxP hi idf ddf out h st hst r hterm k d a hk hd ha
    by_cases htime : "time" ∈ idf.cols
    case neg => simp [computeFinalStats, DF.colE, htime] at h
    have hmapM : (List.range maxP).mapM (finalStatsSlot hi idf ddf) = .ok out := by
      simpa [computeFinalStats, DF.colE, htime] using h
    have h2 := mapM_ok_forall2 _ _ _ hmapM
    rcases forall2_mem_right h2 st hst with ⟨sn, _, hok⟩
    rcases finalStatsSlot_ok_spec hi idf ddf sn st hok with ⟨r0, hterm0, q, _, hb⟩
    have hsn1 : st.1 = (sn : ℤ) := by rw [hb]
    rw [hsn1] at hterm
    have hr : r0 = r := by
      have := hterm0.symm.trans hterm
      exact Option.some.injEq _ _ ▸ this
    subst hr
    rw [hb]
    unfold finalTotalsRow
    simp only [List.find?]
    rw [hk, hd, ha]
    simp [PVal.padd, PVal.pmaxFloor1, PVal.pdiv, PVal.pround1, hden d]

/-- A one-row group with deaths 0 throughout, for the C10 witness. -/
def witKdaGroup : List Row :=
  [[("kills", Cell.num (PVal.fin 2)), ("deaths", Cell.num (PVal.fin 0)),
    ("assists", Cell.num (PVal.fin 3))]]

theorem C10_witness :
    (secondAggRow perMinuteColumns witKdaGroup).get "kda"
      = Cell.num (PVal.fin ((2 + 3) / max 0 1))
    ∧ 0 < max (0 : ℚ) 1
    ∧ witFinalFields.find? (fun p => p.1 == "Total KDA")
      = some ("Total KDA", PVal.fin (pyRound1 ((2 + 3) / max 0 1))) := by
  have hA := C10_kda.1 perMinuteColumns witKdaGroup 2 0 3 (by decide) rfl rfl rfl
  refine ⟨hA.1, hA.2, ?_⟩
  have hok : computeFinalStats 1 heroInfoW witFinalIdf cexSlotDdf
      = (Except.ok [((0 : ℤ), witFinalFields)]
          : Except PyError (List (ℤ × List (String × PVal)))) := rfl
  exact C10_kda.2 1 heroInfoW witFinalIdf cexSlotDdf _ hok
    ((0 : ℤ), witFinalFields) (by simp) _ rfl 2 0 3 rfl rfl rfl

/-! ### Join lemmas for Claim C7 -/

theorem select_get (cs : List String) (c : String) (hc : c ∈ cs) (r : Row) :
    Row.get (r.filter (fun p => p.1 ∈ cs)) c = r.get c := by
  unfold Row.get
  rw [find?_filter_comm]
  intro a ha
  simp only [decide_eq_true_eq] at ha ⊢
  rw [ha]
  exact hc

theorem find?_map_assoc_isSome (cols : List String) (f : String → Cell)
    (c : String) (h : c ∈ cols) :
    ((cols.map (fun c => (c, f c))).find? (fun p => p.1 = c)).isSome = true := by
  induction cols with
  | nil => simp at h
  | cons a l ih =>
      by_cases hac : a = c
      · subst hac
        rw [List.map_cons, List.find?_cons_of_pos _ (by simp)]
        rfl
      · rw [List.map_cons, List.find?_cons_of_neg _ (by simpa using hac)]
        exact ih (by rcases List.mem_cons.mp h with h | h; exact absurd h.symm hac; exact h)

theorem Row.get_append_left (l₁ l₂ : Row) (c : String)
    (h : (l₁.find? (fun p => p.1 = c)).isSome = true) :
    Row.get (l₁ ++ l₂) c = Row.get l₁ c := by
  induction l₁ with
  | nil => simp [List.find?] at h
  | cons p l₁ ih =>
      by_cases hpc : p.1 = c
      · unfold Row.get
        rw [List.cons_append, List.find?_cons_of_pos _ (by simpa using hpc),
          List.find?_cons_of_pos _ (by simpa using hpc)]
      · unfold Row.get at ih ⊢
        rw [List.cons_append, List.find?_cons_of_neg _ (by simpa using hpc),
          List.find?_cons_of_neg _ (by simpa using hpc)]
        apply ih
        rw [List.find?_cons_of_neg _ (by simpa using hpc)] at h
        exact h

theorem fillna0_rows_form (d : DF) :
    ∀ r' ∈ d.fillna0.rows, ∃ f : String → Cell,
      r' = d.cols.map (fun c => (c, f c)) ∧ ∀ c, (f c).isNA = false := by
  intro r' hr'
  rcases List.mem_map.mp hr' with ⟨r0, _, hform⟩
  refine ⟨fun c => if (r0.get c).isNA then Cell.num (PVal.fin 0) else r0.get c,
    hform.symm, ?_⟩
  intro c
  show (if (r0.get c).isNA = true then Cell.num (PVal.fin 0) else r0.get c).isNA = false
  by_cases h : (r0.get c).isNA
  · rw [if_pos h]; rfl
  · rw [if_neg h]; simpa using h

theorem filter_eq_nil_or_singleton {α β : Type} [BEq β] [LawfulBEq β] (key : α → β) :
    ∀ l : List α, (l.map key).Nodup → ∀ k : β,
      l.filter (fun a => k == key a) = []
      ∨ ∃ a, l.filter (fun a => k == key a) = [a] ∧ key a = k := by
  intro l
  induction l with
  | nil => intro _ k; left; rfl
  | cons x l ih =>
      intro hnd k
      rw [List.map_cons, List.nodup_cons] at hnd
      by_cases hk : k = key x
      · right
        refine ⟨x, ?_, hk.symm⟩
        rw [List.filter_cons, if_pos (by simpa using hk)]
        have : l.filter (fun a => k == key a) = [] := by
          rw [List.filter_eq_nil_iff]
          intro a ha
          simp only [beq_iff_eq]
          intro hcontra
          have hxa : key x = key a := hk.symm.trans hcontra
          exact hnd.1 (by rw [hxa]; exact List.mem_map_of_mem key ha)
        rw [this]
      · rw [List.filter_cons, if_neg (by simpa using hk)]
        exact ih hnd.2 k

theorem flatMap_singleton_map {α γ : Type} (f : α → List α) (kf : α → γ) :
    ∀ l : List α, (∀ x ∈ l, (f x).map kf = [kf x]) →
      (l.flatMap f).map kf = l.map kf := by
  intro l
  induction l with
  | nil => intro _; rfl
  | cons x l ih =>
      intro h
      rw [List.flatMap_cons, List.map_append, h x (by simp),
        ih (fun y hy => h y (by simp [hy])), List.map_cons]
      rfl

/-- The columns of `aggregate_interval_data`'s output, as a function of
the configured rate columns. -/
def aggIntervalOutCols (pm : List String) : List String :=
  let merged := firstAggCols ++ (pm ++ ["denies", "lh", "kda", "minute", "slot"]).filter
    (fun c => decide (c ∉ firstAggCols))
  let c1 := if "hero_name" ∈ merged then merged else merged ++ ["hero_name"]
  if "localized_hero_name" ∈ c1 then c1 else c1 ++ ["localized_hero_name"]

theorem addHeroName_ok_cols (hi : ℤ → String × String) (d d' : DF)
    (h : addHeroName hi d = .ok d') :
    d'.cols =
      (let c1 := if "hero_name" ∈ d.cols then d.cols else d.cols ++ ["hero_name"]
       if "localized_hero_name" ∈ c1 then c1 else c1 ++ ["localized_hero_name"]) := by
  by_cases hc : "hero_id" ∈ d.cols
  case neg => simp [addHeroName, DF.colE, hc] at h
  simp only [addHeroName, DF.colE, if_pos hc, ok_bind] at h
  cases h1 : d.rows.mapM (fun r => do
      let hid ← pvToIntE (r.get "hero_id").pv
      pure (r.set "hero_name" (Cell.str (hi hid).1))) with
  | error e => rw [h1] at h; simp at h
  | ok rows1 =>
      rw [h1] at h
      simp only [ok_bind] at h
      cases h2 : rows1.mapM (fun r => do
          let hid ← pvToIntE (r.get "hero_id").pv
          pure (r.set "localized_hero_name" (Cell.str (hi hid).2))) with
      | error e => rw [h2] at h; simp at h
      | ok rows2 =>
          rw [h2] at h
          simp only [ok_bind] at h
          cases h
          rfl

theorem aggInterval_ok_form (pm : List String) (hi : ℤ → String × String)
    (df pid : DF) (h : aggregateIntervalData pm hi df = .ok pid) :
    (∃ X : DF, X.cols = pid.cols ∧ pid = X.fillna0)
    ∧ pid.cols = aggIntervalOutCols pm := by
  by_cases hmiss : missingIntervalFields pm df = []
  case neg => simp [aggregateIntervalData, hmiss] at h
  by_cases hblock : "block" ∈ df.cols
  case neg => simp [aggregateIntervalData, hmiss, DF.colE, hblock] at h
  simp only [aggregateIntervalData, hmiss, if_pos, DF.colE, hblock, ok_bind,
    if_true] at h
  cases haddh : addHeroName hi (mergeLeft
      { cols := firstAggCols
        rows := (groupKeys df.rows "block" "slot").map
          (fun k => firstAggRow (groupRows df.rows "block" "slot" k) k) }
      { cols := pm ++ ["denies", "lh", "kda", "minute", "slot"]
        rows := (groupKeys df.rows "block" "slot").map
          (fun k => secondAggRow pm (groupRows df.rows "block" "slot" k)) }
      ["minute", "slot"] ["minute", "slot"]) with
  | error e => rw [haddh] at h; simp at h
  | ok withNames =>
      rw [haddh] at h
      simp only [ok_bind] at h
      cases h
      have hcols := addHeroName_ok_cols hi _ _ haddh
      constructor
      · exact ⟨withNames, by simp [DF.fillna0], rfl⟩
      · simp only [DF.fillna0]
        rw [hcols]
        rfl

theorem aggDamage_ok_spec (df pdd : DF) (h : aggregateDamageData df = .ok pdd) :
    pdd.cols = ["block", "attackername", "damage_dealt_to_heroes", "minute"]
    ∧ (pdd.rows.map (fun rr => (rr.get "block", rr.get "attackername"))).Nodup := by
  by_cases h1 : "attackername" ∈ df.cols
  case neg => simp [aggregateDamageData, DF.colE, h1] at h
  by_cases h2 : "targetname" ∈ df.cols
  case neg => simp [aggregateDamageData, DF.colE, h1, h2] at h
  by_cases h3 : "attackerhero" ∈ df.cols
  case neg => simp [aggregateDamageData, DF.colE, h1, h2, h3] at h
  by_cases h4 : "targethero" ∈ df.cols
  case neg => simp [aggregateDamageData, DF.colE, h1, h2, h3, h4] at h
  by_cases h5 : "block" ∈ df.cols
  case neg => simp [aggregateDamageData, DF.colE, h1, h2, h3, h4, h5] at h
  by_cases h6 : "value" ∈ df.cols
  case neg => simp [aggregateDamageData, DF.colE, h1, h2, h3, h4, h5, h6] at h
  by_cases h7 : "minute" ∈ df.cols
  case neg => simp [aggregateDamageData, DF.colE, h1, h2, h3, h4, h5, h6, h7] at h
  simp only [aggregateDamageData, DF.colE, if_pos h1, if_pos h2, if_pos h3,
    if_pos h4, if_pos h5, if_pos h6, if_pos h7, ok_bind] at h
  injection h with hv
  subst hv
  refine ⟨rfl, ?_⟩
  rw [List.map_map]
  have hc : ((fun rr : Row => (rr.get "block", rr.get "attackername")) ∘
      (fun k : Cell × Cell =>
        ([("block", k.1), ("attackername", k.2),
          ("damage_dealt_to_heroes", Cell.num (PVal.aggSum
            ((groupRows (((df.rows.filter (fun r => nameStarts (r.get "attackername"))).filter
                (fun r => nameStarts (r.get "targetname"))).filter (fun r =>
                  r.get "attackerhero" == Cell.num (PVal.fin 1) &&
                  r.get "targethero" == Cell.num (PVal.fin 1))) "block" "attackername" k).map
              (fun r => (r.get "value").pv)))),
          ("minute", aggLastCell ((groupRows (((df.rows.filter
              (fun r => nameStarts (r.get "attackername"))).filter
              (fun r => nameStarts (r.get "targetname"))).filter (fun r =>
                r.get "attackerhero" == Cell.num (PVal.fin 1) &&
                r.get "targethero" == Cell.num (PVal.fin 1))) "block" "attackername" k).map
            (fun r => r.get "minute")))] : Row)))
      = id := funext fun k => rfl
  rw [hc, List.map_id]
  exact (List.nodup_dedup _).filter _

theorem mergeLeft_map_key {γ : Type} (left right : DF) (lk rk : List String)
    (kf : Row → γ)
    (hnodup : (right.rows.map (fun rr => rk.map (fun c => rr.get c))).Nodup)
    (hkeep : ∀ lr ∈ left.rows, ∀ rr : Row,
      kf (lr ++ rr.filter (fun p => decide (p.1 ∉ left.cols))) = kf lr) :
    (mergeLeft left right lk rk).rows.map kf = left.rows.map kf := by
  show ((left.rows.flatMap (fun lr =>
      match right.rows.filter (fun rr => rowsMatch lr lk rr rk) with
      | [] => [lr]
      | ms => ms.map (fun rr =>
          lr ++ rr.filter (fun p => decide (p.1 ∉ left.cols))))).map kf)
    = left.rows.map kf
  apply flatMap_singleton_map
  intro lr hlr
  have hbridge : right.rows.filter (fun rr => rowsMatch lr lk rr rk)
      = right.rows.filter (fun rr =>
          (lk.map (fun c => lr.get c)) == (rk.map (fun c => rr.get c))) := rfl
  rcases filter_eq_nil_or_singleton (fun rr => rk.map (fun c => rr.get c))
      right.rows hnodup (lk.map (fun c => lr.get c)) with hnil | ⟨a, hone, _⟩
  · rw [hbridge.trans hnil]
    rfl
  · rw [hbridge.trans hone]
    show [kf (lr ++ a.filter (fun p => decide (p.1 ∉ left.cols)))] = [kf lr]
    rw [hkeep lr hlr a]

theorem mergeLeft_unmatched_mem (left right : DF) (lk rk : List String)
    (lr : Row) (hlr : lr ∈ left.rows)
    (hnil : right.rows.filter (fun rr => rowsMatch lr lk rr rk) = []) :
    lr ∈ (mergeLeft left right lk rk).rows := by
  show lr ∈ left.rows.flatMap (fun lr =>
      match right.rows.filter (fun rr => rowsMatch lr lk rr rk) with
      | [] => [lr]
      | ms => ms.map (fun rr =>
          lr ++ rr.filter (fun p => decide (p.1 ∉ left.cols))))
  refine List.mem_flatMap.mpr ⟨lr, hlr, ?_⟩
  rw [hnil]
  simp

/-! ### Claim C7 -/

/-- C7 — confirmed.  The join of interval records to damage records is a
left join on `(block, hero_name = attackername)`: every `(block, slot)`
pair of the Interval Aggregator's output appears in the joined output
exactly as often as in the interval output (first conjunct — the whole
`(block, slot)` column is preserved row-for-row, which for the observed
`(block, slot)` pairs means exactly once each), and an interval row with
no matching damage record survives unchanged with a missing (NaN) damage
value rather than being dropped (second conjunct). -/
theorem C7_left_join (hi : ℤ → String × String) (idf ddf pid pdd : DF)
    (hpid : aggregateIntervalData perMinuteColumns hi idf = .ok pid)
    (hpdd : aggregateDamageData ddf = .ok pdd) :
    ((mergeLeft pid (pdd.select ["block", "attackername", "damage_dealt_to_heroes"])
        ["block", "hero_name"] ["block", "attackername"]).rows.map
      (fun r => (r.get "block", r.get "slot"))
      = pid.rows.map (fun r => (r.get "block", r.get "slot")))
    ∧ (∀ lr ∈ pid.rows,
        ((pdd.select ["block", "attackername", "damage_dealt_to_heroes"]).rows.filter
          (fun rr => rowsMatch lr ["block", "hero_name"] rr ["block", "attackername"])) = [] →
        lr ∈ (mergeLeft pid
            (pdd.select ["block", "attackername", "damage_dealt_to_heroes"])
            ["block", "hero_name"] ["block", "attackername"]).rows
          ∧ lr.get "damage_dealt_to_heroes" = Cell.num PVal.nan) := by
  rcases aggInterval_ok_form perMinuteColumns hi idf pid hpid with ⟨⟨X, hXcols, hXeq⟩, hcols⟩
  have hdspec := aggDamage_ok_spec ddf pdd hpdd
  have hbind : ∀ lr ∈ pid.rows,
      ((lr.find? (fun p => p.1 = "block")).isSome = true)
      ∧ ((lr.find? (fun p => p.1 = "slot")).isSome = true)
      ∧ lr.get "damage_dealt_to_heroes" = Cell.num PVal.nan := by
    intro lr hlr
    rw [hXeq] at hlr
    rcases fillna0_rows_form X lr hlr with ⟨f, hform, _⟩
    have hXc : X.cols = aggIntervalOutCols perMinuteColumns := hXcols.trans hcols
    subst hform
    refine ⟨?_, ?_, ?_⟩
    · exact find?_map_assoc_isSome X.cols f "block" (by rw [hXc]; decide)
    · exact find?_map_assoc_isSome X.cols f "slot" (by rw [hXc]; decide)
    · rw [Row.get_of_map_assoc, hXc, if_neg (by decide)]
  constructor
  · apply mergeLeft_map_key
    · have hsel : (pdd.select ["block", "attackername", "damage_dealt_to_heroes"]).rows.map
          (fun rr => ["block", "attackername"].map (fun c => rr.get c))
          = pdd.rows.map (fun rr => ["block", "attackername"].map (fun c => rr.get c)) := by
        simp only [DF.select, List.map_map]
        apply List.map_congr_left
        intro rr _
        simp only [Function.comp_apply, List.map_cons, List.map_nil]
        rw [select_get _ _ (by decide), select_get _ _ (by decide)]
      rw [hsel]
      have hmapeq : pdd.rows.map (fun rr => ["block", "attackername"].map (fun c => rr.get c))
          = (pdd.rows.map (fun rr => (rr.get "block", rr.get "attackername"))).map
            (fun p => [p.1, p.2]) := by
        rw [List.map_map]
        rfl
      rw [hmapeq]
      refine List.Nodup.map ?_ hdspec.2
      intro p q hpq
      simp only [List.cons.injEq, and_true] at hpq
      exact Prod.ext hpq.1 hpq.2
    · intro lr hlr rr
      have hb := hbind lr hlr
      show (Row.get (lr ++ rr.filter (fun p => decide (p.1 ∉ pid.cols))) "block",
          Row.get (lr ++ rr.filter (fun p => decide (p.1 ∉ pid.cols))) "slot")
        = (lr.get "block", lr.get "slot")
      rw [Row.get_append_left _ _ _ hb.1, Row.get_append_left _ _ _ hb.2.1]
  · intro lr hlr hnil
    exact ⟨mergeLeft_unmatched_mem _ _ _ _ lr hlr hnil, (hbind lr hlr).2.2⟩

/-- Preprocessed interval frame (one row, block 0, slot 0) for the C7
witness. -/
def witJoinIdf : DF :=
  { cols := ["time", "minute", "level", "hero_id", "teamfight_participation",
             "kills", "deaths", "assists", "gold", "xp", "denies", "lh",
             "slot", "block"]
    rows := [[("time", Cell.num (PVal.fin 1)), ("minute", Cell.num (PVal.fin 0)),
              ("level", Cell.num (PVal.fin 1)), ("hero_id", Cell.num (PVal.fin 0)),
              ("teamfight_participation", Cell.num (PVal.fin 0)),
              ("kills", Cell.num (PVal.fin 0)), ("deaths", Cell.num (PVal.fin 0)),
              ("assists", Cell.num (PVal.fin 0)), ("gold", Cell.num (PVal.fin 0)),
              ("xp", Cell.num (PVal.fin 0)), ("denies", Cell.num (PVal.fin 0)),
              ("lh", Cell.num (PVal.fin 0)), ("slot", Cell.num (PVal.fin 0)),
              ("block", Cell.num (PVal.fin 0))]] }

/-- Preprocessed damage frame (one hero-vs-hero event whose attacker
matches no interval hero) for the C7 witness. -/
def witJoinDdf : DF :=
  { cols := ["block", "minute", "attackername", "targetname", "attackerhero",
             "targethero", "value"]
    rows := [[("block", Cell.num (PVal.fin 0)), ("minute", Cell.num (PVal.fin 0)),
              ("attackername", Cell.str "npc_dota_hero_h5"),
              ("targetname", Cell.str "npc_dota_hero_h6"),
              ("attackerhero", Cell.num (PVal.fin 1)),
              ("targethero", Cell.num (PVal.fin 1)),
              ("value", Cell.num (PVal.fin 44))]] }

theorem C7_witness :
    ∃ pid pdd : DF,
      aggregateIntervalData perMinuteColumns heroInfoW witJoinIdf = .ok pid
      ∧ aggregateDamageData witJoinDdf = .ok pdd
      ∧ ((mergeLeft pid (pdd.select ["block", "attackername", "damage_dealt_to_heroes"])
            ["block", "hero_name"] ["block", "attackername"]).rows.map
          (fun r => (r.get "block", r.get "slot"))
          = pid.rows.map (fun r => (r.get "block", r.get "slot"))) := by
  have hiok : (aggregateIntervalData perMinuteColumns heroInfoW witJoinIdf).isOk = true := rfl
  have hdok : (aggregateDamageData witJoinDdf).isOk = true := rfl
  cases hpid : aggregateIntervalData perMinuteColumns heroInfoW witJoinIdf with
  | error e => rw [hpid] at hiok; simp [Except.isOk, Except.toBool] at hiok
  | ok pid =>
      cases hpdd : aggregateDamageData witJoinDdf with
      | error e => rw [hpdd] at hdok; simp [Except.isOk, Except.toBool] at hdok
      | ok pdd =>
          exact ⟨pid, pdd, rfl, rfl,
            (C7_left_join heroInfoW witJoinIdf witJoinDdf pid pdd hpid hpdd).1⟩

/-! ### Lemmas about the per-player post-processing, for Claim C1 -/

/-- The `astype(int)` loop body of `_postprocess_player_data`. -/
def castIntBody (rr : Row) (c : String) : Except PyError Row := do
  let z ← pvToIntE (rr.get c).pv
  pure (rr.set c (Cell.num (PVal.fin (z : ℚ))))

theorem foldlM_cast_preserve :
    ∀ (cs : List String) (rc r : Row),
      cs.foldlM castIntBody rc = .ok r →
      ∀ c', c' ∉ cs → r.get c' = rc.get c' := by
  intro cs
  induction cs with
  | nil =>
      intro rc r h c' _
      cases h
      rfl
  | cons c cs ih =>
      intro rc r h c' hc'
      rw [List.foldlM_cons] at h
      cases hz : pvToIntE (rc.get c).pv with
      | error e => rw [castIntBody, hz] at h; simp at h
      | ok z =>
          rw [castIntBody, hz] at h
          simp only [ok_bind] at h
          rw [ih _ _ h c' (fun hmem => hc' (by simp [hmem]))]
          exact Row.get_set_ne _ _ _ _ (fun he => hc' (by simp [he]))

theorem foldlM_cast_int :
    ∀ (cs : List String) (rc r : Row),
      cs.Nodup →
      cs.foldlM castIntBody rc = .ok r →
      ∀ c ∈ cs, ∃ z : ℤ, r.get c = Cell.num (PVal.fin (z : ℚ)) := by
  intro cs
  induction cs with
  | nil => intro rc r _ _ c hc; simp at hc
  | cons c0 cs ih =>
      intro rc r hnd h c hc
      rw [List.foldlM_cons] at h
      cases hz : pvToIntE (rc.get c0).pv with
      | error e => rw [castIntBody, hz] at h; simp at h
      | ok z =>
          rw [castIntBody, hz] at h
          simp only [ok_bind] at h
          rw [List.nodup_cons] at hnd
          rcases List.mem_cons.mp hc with rfl | hc
          · refine ⟨z, ?_⟩
            rw [foldlM_cast_preserve cs _ r h c hnd.1]
            exact Row.get_set_self _ _ _
          · exact ih _ _ hnd.2 h c hc

/-- The per-block stat fields that `_postprocess_player_data` casts to
integers (their dictionary labels). -/
def statIntFields : List String :=
  ["gold per minute", "last hits", "denies", "xp per minute", "kills",
   "deaths", "assists", "damage per minute", "teamfight seconds"]

theorem bind_eq_ok {ε α β : Type} {e : Except ε α} {f : α → Except ε β}
    {b : β} (h : (e >>= f) = .ok b) : ∃ a, e = .ok a ∧ f a = .ok b := by
  cases e with
  | error err => simp only [error_bind] at h; cases h
  | ok a => exact ⟨a, rfl, h⟩

theorem postprocessPlayerData_int_fields (cols : List String) (rows : List Row)
    (stats : List (List (String × PVal)))
    (hok : postprocessPlayerData cols rows = .ok stats) :
    ∀ srow ∈ stats, ∀ kv ∈ srow, kv.1 ∈ statIntFields →
      ∃ z : ℤ, kv.2 = PVal.fin (z : ℚ) := by
  by_cases hminc : "minute" ∈ cols
  case neg => simp [postprocessPlayerData, hminc] at hok
  cases hfind : columnsToClean.find? (fun c => decide (c ∉ cols)) with
  | some c =>
      simp only [postprocessPlayerData, if_pos hminc, hfind, ok_bind,
        error_bind] at hok
      cases hok
  | none =>
      simp only [postprocessPlayerData, if_pos hminc, hfind, ok_bind] at hok
      rcases bind_eq_ok hok with ⟨casted, hcast, hpure⟩
      have hstats : casted.map (fun r =>
          [("minute", (r.get "minute").pv),
           ("gold per minute", (r.get "gold").pv),
           ("last hits", (r.get "lh").pv),
           ("denies", (r.get "denies").pv),
           ("xp per minute", (r.get "xp").pv),
           ("kills", (r.get "kills").pv),
           ("deaths", (r.get "deaths").pv),
           ("assists", (r.get "assists").pv),
           ("KDA", PVal.pround1 (r.get "kda").pv),
           ("damage per minute", (r.get "dpm").pv),
           ("teamfight seconds", (r.get "teamfight_participation").pv)]) = stats := by
        injection hpure
      intro srow hsrow kv hkv hfield
      rw [← hstats] at hsrow
      rcases List.mem_map.mp hsrow with ⟨r, hr, hbuild⟩
      have h2 := mapM_ok_forall2 _ _ _ hcast
      rcases forall2_mem_right h2 r hr with ⟨rc, _, hf⟩
      have hfold : intColumns.foldlM castIntBody rc = .ok r := hf
      have hints := foldlM_cast_int intColumns rc r (by decide) hfold
      have hget : ∀ c ∈ intColumns, ∃ z : ℤ, (r.get c).pv = PVal.fin (z : ℚ) := by
        intro c hc
        rcases hints c hc with ⟨z, hz⟩
        exact ⟨z, by rw [hz]; rfl⟩
      subst hbuild
      simp only [List.mem_cons, List.not_mem_nil, or_false] at hkv
      rcases hkv with rfl | rfl | rfl | rfl | rfl | rfl | rfl | rfl | rfl | rfl | rfl
      · exact absurd hfield (by simp [statIntFields])
      · exact hget "gold" (by decide)
      · exact hget "lh" (by decide)
      · exact hget "denies" (by decide)
      · exact hget "xp" (by decide)
      · exact hget "kills" (by decide)
      · exact hget "deaths" (by decide)
      · exact hget "assists" (by decide)
      · exact absurd hfield (by simp [statIntFields])
      · exact hget "dpm" (by decide)
      · exact hget "teamfight_participation" (by decide)

theorem pure_eq_ok {ε α : Type} {a b : α}
    (h : (pure a : Except ε α) = Except.ok b) : a = b := by
  injection h

theorem postprocessData_ok_stats (w : ℤ) (bt : ℤ → ℤ → Option Benchmark)
    (pct : ℤ) (cols : List String) (rows : List Row) (winning : Team)
    (finalStats : List (ℤ × List (String × PVal))) (matchLength : PVal)
    (slot : ℤ) (ps : PlayerSummary)
    (hok : postprocessData w bt pct cols rows winning finalStats matchLength
      slot = .ok ps) :
    postprocessPlayerData cols rows = .ok ps.stats := by
  simp only [postprocessData] at hok
  rcases bind_eq_ok hok with ⟨u1, _, hok⟩
  rcases bind_eq_ok hok with ⟨hidCell, _, hok⟩
  rcases bind_eq_ok hok with ⟨hid, _, hok⟩
  rcases bind_eq_ok hok with ⟨u2, _, hok⟩
  rcases bind_eq_ok hok with ⟨heroCell, _, hok⟩
  rcases bind_eq_ok hok with ⟨stats, hstats, hok⟩
  rcases bind_eq_ok hok with ⟨fsSlot, _, hok⟩
  rcases bind_eq_ok hok with ⟨fsInt, _, hok⟩
  rcases bind_eq_ok hok with ⟨bench, _, hok⟩
  have hps := pure_eq_ok hok
  rw [← hps]
  exact hstats

theorem forall2_map_eq {α β γ : Type} {R : α → β → Prop}
    (φ : β → γ) (ψ : α → γ) :
    ∀ {l₁ : List α} {l₂ : List β}, List.Forall₂ R l₁ l₂ →
      (∀ a b, R a b → φ b = ψ a) → l₂.map φ = l₁.map ψ := by
  intro l₁ l₂ h hmap
  induction h with
  | nil => rfl
  | cons hR htail ih => simp [List.map_cons, hmap _ _ hR, ih]

theorem splitDataByPlayer_length (df : DF) (m : ℕ) :
    (splitDataByPlayer df m).length = m := by
  rw [splitDataByPlayer, List.length_map, List.length_range]

/-! ### Claim C4 -/

/-- C4 — corrected (for the full pipeline).  The validation inside the
Interval Aggregator itself does run before any aggregation and raises
`CorruptedDataError` naming exactly the missing required fields: the error
is produced no matter what the rows contain, purely from the column
check. -/
theorem C4_interval_field_validation (perMin : List String)
    (hi : ℤ → String × String) (df : DF)
    (h : missingIntervalFields perMin df ≠ []) :
    aggregateIntervalData perMin hi df
      = .error (.corrupted (missingIntervalFields perMin df)) := by
  simp [aggregateIntervalData, h]

/-- A full event stream whose interval events lack the `denies` field
entirely (the column is absent from the frame). -/
def cexDeniesDF : DF :=
  { cols := ["type", "time", "slot", "hero_id", "gold", "xp", "lh", "kills",
             "deaths", "assists", "level", "teamfight_participation",
             "attackername", "targetname", "attackerhero", "targethero", "value"]
    rows := [[("type", Cell.str "interval"), ("time", Cell.num (PVal.fin 1)),
              ("slot", Cell.num (PVal.fin 0)), ("hero_id", Cell.num (PVal.fin 1)),
              ("gold", Cell.num (PVal.fin 0)), ("xp", Cell.num (PVal.fin 0)),
              ("lh", Cell.num (PVal.fin 0)), ("kills", Cell.num (PVal.fin 0)),
              ("deaths", Cell.num (PVal.fin 0)), ("assists", Cell.num (PVal.fin 0)),
              ("level", Cell.num (PVal.fin 1)),
              ("teamfight_participation", Cell.num (PVal.fin 0))],
             [("type", Cell.str "DOTA_COMBATLOG_DAMAGE"),
              ("time", Cell.num (PVal.fin 1)),
              ("attackername", Cell.str "npc_dota_hero_h1"),
              ("targetname", Cell.str "npc_dota_hero_h2"),
              ("attackerhero", Cell.num (PVal.fin 1)),
              ("targethero", Cell.num (PVal.fin 1)),
              ("value", Cell.num (PVal.fin 100))],
             [("type", Cell.str "DOTA_COMBATLOG_TEAM_BUILDING_KILL"),
              ("time", Cell.num (PVal.fin 2)),
              ("targetname", Cell.str "npc_dota_badguys_fort")]] }

/-- C4 — counterexample.  On a stream whose interval events have no
`denies` field, processing the match raises `KeyError('denies')` from
`compute_final_stats` — which `process_replay_data` calls **before**
`aggregate_interval_data` — so no `CorruptedDataError` naming the field is
ever produced, contrary to the claim. -/
theorem C4_counterexample :
    processReplayData 10 10 perMinuteColumns 50 heroInfoW benchTableW cexDeniesDF
      = .error (.keyError "denies")
    ∧ isCorruptedError
        (processReplayData 10 10 perMinuteColumns 50 heroInfoW benchTableW cexDeniesDF)
      = false := by decide

theorem C4_witness :
    missingIntervalFields perMinuteColumns
      { cols := ["time", "minute", "level", "hero_id", "teamfight_participation",
                 "kills", "deaths", "assists", "gold", "xp", "lh", "slot"]
        rows := [] } ≠ []
    ∧ aggregateIntervalData perMinuteColumns heroInfoW
      { cols := ["time", "minute", "level", "hero_id", "teamfight_participation",
                 "kills", "deaths", "assists", "gold", "xp", "lh", "slot"]
        rows := [] }
      = .error (.corrupted ["denies"]) := by
  refine ⟨by decide, ?_⟩
  have h := C4_interval_field_validation perMinuteColumns heroInfoW
    { cols := ["time", "minute", "level", "hero_id", "teamfight_participation",
               "kills", "deaths", "assists", "gold", "xp", "lh", "slot"]
      rows := [] } (by decide)
  exact h.trans (by decide)

/-! ### Claim C1 -/

theorem mapM_zip_range_keys {β : Type} (m : ℕ) (slots : List (List Row))
    (g : ℕ × List Row → Except PyError (ℤ × β)) (out : List (ℤ × β))
    (hlen : slots.length = m)
    (hkey : ∀ a b, g a = .ok b → b.1 = (a.1 : ℤ))
    (h : ((List.range m).zip slots).mapM g = .ok out) :
    out.map Prod.fst = (List.range m).map (fun (sn : ℕ) => (sn : ℤ)) := by
  have h2 := mapM_ok_forall2 _ _ _ h
  have hmap := forall2_map_eq Prod.fst
    (fun (p : ℕ × List Row) => ((p.1 : ℤ))) h2 hkey
  rw [hmap]
  rw [show (fun (p : ℕ × List Row) => ((p.1 : ℤ)))
      = (fun (sn : ℕ) => (sn : ℤ)) ∘ Prod.fst from rfl]
  rw [← List.map_map]
  rw [List.map_fst_zip _ _ (by simp [hlen])]

/-- C1 — corrected.  The original claim is true only for streams that
survive the whole pipeline: whenever `process_replay_data` with the
default settings (10 players, per-minute columns gold and xp) returns an
output at all, that output has exactly the ten slot keys 0–9 in order,
and in every slot's per-block stats each integer-cast numeric field
(gold per minute, last hits, denies, xp per minute, kills, deaths,
assists, damage per minute, teamfight seconds) is a concrete integer —
never missing/NaN, the NaNs of the sparse left joins having been replaced
by 0 and the columns cast with `astype(int)`.  But a type-check-passing
stream in which some slot has no interval data does not produce such an
output: it raises `IndexError` (see the counterexample). -/
theorem C1_ten_slots (w pct : ℤ) (hi : ℤ → String × String)
    (bt : ℤ → ℤ → Option Benchmark) (df : DF)
    (out : List (ℤ × PlayerSummary))
    (h : processReplayData w 10 perMinuteColumns pct hi bt df = .ok out) :
    out.map Prod.fst = (List.range 10).map (fun (sn : ℕ) => (sn : ℤ))
    ∧ ∀ p ∈ out, ∀ srow ∈ p.2.stats, ∀ kv ∈ srow, kv.1 ∈ statIntFields →
        ∃ z : ℤ, kv.2 = PVal.fin (z : ℚ) := by
  simp only [processReplayData] at h
  rcases bind_eq_ok h with ⟨typeCol, htc, h⟩
  by_cases hmiss : missingTypesOf typeCol = []
  case neg => rw [if_neg hmiss] at h; cases h
  rw [if_pos hmiss] at h
  rcases bind_eq_ok h with ⟨matchLength, hml, h⟩
  rcases bind_eq_ok h with ⟨winner, hw, h⟩
  rcases bind_eq_ok h with ⟨pdd, hpdd, h⟩
  rcases bind_eq_ok h with ⟨fs, hfs, h⟩
  rcases bind_eq_ok h with ⟨pid, hpid, h⟩
  constructor
  · exact mapM_zip_range_keys 10 _ _ out (splitDataByPlayer_length _ 10)
      (fun a b hg => by
        rcases bind_eq_ok hg with ⟨ps, hps, hpure⟩
        have hb := pure_eq_ok hpure
        rw [← hb]) h
  · intro p hp srow hsrow kv hkv hfield
    have h2 := mapM_ok_forall2 _ _ _ h
    rcases forall2_mem_right h2 p hp with ⟨a, ha, hg⟩
    rcases bind_eq_ok hg with ⟨ps, hps, hpure⟩
    have hb := pure_eq_ok hpure
    have hstats := postprocessData_ok_stats _ _ _ _ _ _ _ _ _ _ hps
    refine postprocessPlayerData_int_fields _ _ _ hstats srow ?_ kv hkv hfield
    rw [← hb] at hsrow
    exact hsrow

/-- Column list of a full event stream. -/
def c1Cols : List String :=
  ["type", "time", "slot", "hero_id", "gold", "xp", "lh", "denies", "kills",
   "deaths", "assists", "level", "teamfight_participation", "attackername",
   "targetname", "attackerhero", "targethero", "value"]

/-- One interval snapshot for slot `s` at time 1. -/
def c1IvRow (s : ℚ) : Row :=
  [("type", Cell.str "interval"), ("time", Cell.num (PVal.fin 1)),
   ("slot", Cell.num (PVal.fin s)), ("hero_id", Cell.num (PVal.fin s)),
   ("gold", Cell.num (PVal.fin 0)), ("xp", Cell.num (PVal.fin 0)),
   ("lh", Cell.num (PVal.fin 0)), ("denies", Cell.num (PVal.fin 0)),
   ("kills", Cell.num (PVal.fin 0)), ("deaths", Cell.num (PVal.fin 0)),
   ("assists", Cell.num (PVal.fin 0)), ("level", Cell.num (PVal.fin 1)),
   ("teamfight_participation", Cell.num (PVal.fin 0))]

/-- A hero-on-hero damage event. -/
def c1DmgRow : Row :=
  [("type", Cell.str "DOTA_COMBATLOG_DAMAGE"), ("time", Cell.num (PVal.fin 1)),
   ("attackername", Cell.str "npc_dota_hero_h99"),
   ("targetname", Cell.str "npc_dota_hero_h98"),
   ("attackerhero", Cell.num (PVal.fin 1)),
   ("targethero", Cell.num (PVal.fin 1)),
   ("value", Cell.num (PVal.fin 100))]

/-- The radiant-victory building-kill event. -/
def c1BldRow : Row :=
  [("type", Cell.str "DOTA_COMBATLOG_TEAM_BUILDING_KILL"),
   ("time", Cell.num (PVal.fin 2)),
   ("targetname", Cell.str "npc_dota_badguys_fort")]

/-- A stream passing the required-event-type check in which slot 1 (indeed
every slot other than 0) has no interval data at all. -/
def cexC1DF : DF :=
  { cols := c1Cols, rows := [c1IvRow 0, c1DmgRow, c1BldRow] }

/-- A full happy-path stream with one interval snapshot per slot 0–9. -/
def witC1DF : DF :=
  { cols := c1Cols,
    rows := (List.range 10).map (fun (s : ℕ) => c1IvRow (s : ℚ))
      ++ [c1DmgRow, c1BldRow] }

/-- C1 — counterexample to the original claim: `cexC1DF` passes the
required-event-type check (no type is missing from its `type` column),
yet processing it raises `IndexError` (from `compute_final_stats`'s
`.iloc[-1]` on slot 1's empty selection) instead of producing a
10-slot output. -/
theorem C1_counterexample :
    missingTypesOf (cexC1DF.rows.map (fun r => r.get "type")) = []
    ∧ processReplayData 10 10 perMinuteColumns 50 heroInfoW benchTableW cexC1DF
        = .error .indexError := ⟨by decide, rfl⟩

theorem C1_witness :
    ∃ out : List (ℤ × PlayerSummary),
      processReplayData 10 10 perMinuteColumns 50 heroInfoW benchTableW witC1DF
        = .ok out
      ∧ out.map Prod.fst = (List.range 10).map (fun (sn : ℕ) => (sn : ℤ)) := by
  have hok : (processReplayData 10 10 perMinuteColumns 50 heroInfoW benchTableW
      witC1DF).isOk = true := rfl
  cases hev : processReplayData 10 10 perMinuteColumns 50 heroInfoW benchTableW
      witC1DF with
  | error e => rw [hev] at hok; simp [Except.isOk, Except.toBool] at hok
  | ok out =>
      exact ⟨out, rfl,
        (C1_ten_slots 10 50 heroInfoW benchTableW witC1DF out hev).1⟩

end GS
